import Mathlib

/-!
Verification of the pdfsign repository's form-field filler and external
revocation checker against its natural-language specification.

The Go sources are shallowly embedded:
* Go `string` values are byte strings, modelled as `List UInt8` (`GoStr`);
  where a function only ever manipulates text at the rune level
  (`resolveDateLayout`, layout formatting) we use Lean `String`.
* Go `float64` arithmetic is modelled exactly over `ℚ`; `time.Duration`
  and `int64` are modelled as `Int`.
* The `regexp` uses in `fillable_fields_common.go` are specialised to the
  two concrete patterns the repository compiles
  (`date_id_(\d+)_signer_(.+)` and `initials_page_(\d+)_signer_(.+)`),
  with Go's leftmost-first greedy matching implemented directly.
* Network I/O for the external OCSP/CRL checks is modelled by an
  environment record supplying the outcome of each request; the functions
  additionally return the list of URLs contacted so that "no server was
  contacted" is statable.
-/

/-- Go strings are byte strings. -/
abbrev GoStr := List UInt8

/-- UTF-8 encoding of a Lean string as a Go byte string. -/
def goStr (s : String) : GoStr :=
  s.data.flatMap String.utf8EncodeChar

/-- ASCII digit test on a byte (`[0-9]` in the Go regexps). -/
def isDigitB (b : UInt8) : Bool :=
  48 ≤ b && b ≤ 57

/-- Hex digit test on a byte (`[0-9a-fA-F]` in the Go regexps). -/
def isHexB (b : UInt8) : Bool :=
  isDigitB b || (97 ≤ b && b ≤ 102) || (65 ≤ b && b ≤ 70)

/-- The byte class matched by `\s` in Go's regexp package: `[\t\n\f\r ]`. -/
def isReSpaceB (b : UInt8) : Bool :=
  b == 9 || b == 10 || b == 12 || b == 13 || b == 32

/-- Characters accepted by Go's `unicode.IsSpace` in the Latin-1 range;
the repository only ever trims layout/locale strings, which are ASCII. -/
def goIsSpace (c : Char) : Bool :=
  c == ' ' || c == '\t' || c == '\n' || (11 ≤ c.toNat && c.toNat ≤ 13) ||
    c.toNat == 0x85 || c.toNat == 0xA0

/-- Model of Go `strings.TrimSpace`. -/
def goTrimSpace (s : String) : String :=
  ⟨(s.data.dropWhile goIsSpace).reverse.dropWhile goIsSpace |>.reverse⟩

/-- Model of Go `strings.Fields`: split around runs of white space. -/
def goFields (s : String) : List String :=
  (s.data.splitOnP goIsSpace).filter (fun l => !l.isEmpty) |>.map List.asString

/-! ## `fillable_fields_dates.go`: locale table and layout resolution -/

/-- The `localeToDateLayout` map from `fillable_fields_dates.go`, as an
association list (Go map iteration order is irrelevant: only lookups occur). -/
def localeToDateLayout : List (String × String) :=
  [("en-US", "01/02/2006 15:04"), ("en_US", "01/02/2006 15:04"),
   ("fr-FR", "02/01/2006 15:04"), ("fr_FR", "02/01/2006 15:04"),
   ("de-DE", "02.01.2006 15:04"), ("de_DE", "02.01.2006 15:04"),
   ("en-GB", "02/01/2006 15:04"), ("en_GB", "02/01/2006 15:04"),
   ("es-ES", "02/01/2006 15:04"), ("es_ES", "02/01/2006 15:04"),
   ("it-IT", "02/01/2006 15:04"), ("it_IT", "02/01/2006 15:04")]

/-- Map lookup, `layout, ok := localeToDateLayout[k]`. -/
def localeLookup (k : String) : Option String :=
  (localeToDateLayout.find? (fun p => p.1 == k)).map Prod.snd

/-- `strings.ReplaceAll(locale, "_", "-")`; single-character replacement,
hence a character map. -/
def normLocale (locale : String) : String :=
  ⟨locale.data.map (fun c => if c == '_' then '-' else c)⟩

/-- `resolveDateLayout` from `fillable_fields_dates.go`. -/
def resolveDateLayout (dateFormat locale : String) : String :=
  if goTrimSpace dateFormat ≠ "" then dateFormat
  else if goTrimSpace locale ≠ "" then
    match localeLookup (normLocale locale) with
    | some layout => layout
    | none =>
      match localeLookup locale with
      | some layout => layout
      | none => "01/02/2006 15:04"
  else "01/02/2006 15:04"

/-! ## `fillable_fields_dates.go`: date formatting -/

/-- The fields of a Go `time.Time` that the filler consults: calendar
components plus the zone's UTC offset in seconds (`date.Zone()`). -/
structure GoTime where
  year : Nat
  month : Nat
  day : Nat
  hour : Nat
  minute : Nat
  second : Nat
  offset : Int
deriving DecidableEq, Repr

/-- Go `time.Time.IsZero`: January 1, year 1, 00:00:00 UTC. -/
def GoTime.isZero (t : GoTime) : Bool :=
  t.year == 1 && t.month == 1 && t.day == 1 &&
    t.hour == 0 && t.minute == 0 && t.second == 0 && t.offset == 0

/-- Decimal digits of a natural number padded to width 2 (Go `%02d`). -/
def pad2 (n : Nat) : String :=
  if (toString n).length < 2 then "0" ++ toString n else toString n

/-- Go `%02d` applied to an `int` (sign counts toward the width, as in Go). -/
def pad2Int (n : Int) : String :=
  let s := toString n
  if s.length < 2 then "0" ++ s else s

/-- Zero-padding to width 4 for the `2006` layout token. -/
def pad4 (n : Nat) : String :=
  if n < 10 then "000" ++ toString n
  else if n < 100 then "00" ++ toString n
  else if n < 1000 then "0" ++ toString n
  else toString n

/-- One step of Go's `Time.Format` reference-layout scanner, restricted to
the standard tokens appearing in the repository's layouts
(`2006`, `01`, `02`, `15`, `04`, `05`); other characters are copied. -/
def goFormatAux (t : GoTime) : Nat → List Char → List Char
  | 0, _ => []
  | _, [] => []
  | fuel + 1, l =>
    if l.take 4 = ['2', '0', '0', '6'] then
      (pad4 t.year).data ++ goFormatAux t fuel (l.drop 4)
    else if l.take 2 = ['0', '1'] then
      (pad2 t.month).data ++ goFormatAux t fuel (l.drop 2)
    else if l.take 2 = ['0', '2'] then
      (pad2 t.day).data ++ goFormatAux t fuel (l.drop 2)
    else if l.take 2 = ['1', '5'] then
      (pad2 t.hour).data ++ goFormatAux t fuel (l.drop 2)
    else if l.take 2 = ['0', '4'] then
      (pad2 t.minute).data ++ goFormatAux t fuel (l.drop 2)
    else if l.take 2 = ['0', '5'] then
      (pad2 t.second).data ++ goFormatAux t fuel (l.drop 2)
    else
      match l with
      | [] => []
      | c :: rest => c :: goFormatAux t fuel rest

/-- Model of `date.Format(layout)` for the layouts used by the filler. -/
def goFormat (t : GoTime) (layout : String) : String :=
  ⟨goFormatAux t layout.data.length layout.data⟩

/-- The `timezonePart` computation inside `formatDateString`
(`fillable_fields_dates.go`): `offset/3600` and `offset%3600/60` use Go's
truncated division and remainder, i.e. `Int.tdiv`/`Int.tmod`. -/
def tzSuffixCode (offset : Int) : String :=
  if offset = 0 then "GMT"
  else if offset < 0 then
    let offsetHours := offset.tdiv 3600
    let offsetMinutes0 := (offset.tmod 3600).tdiv 60
    let offsetMinutes :=
      if offsetMinutes0 < 0 then -offsetMinutes0 else offsetMinutes0
    "-" ++ pad2Int (-offsetHours) ++ ":" ++ pad2Int offsetMinutes
  else
    let offsetHours := offset.tdiv 3600
    let offsetMinutes := (offset.tmod 3600).tdiv 60
    "+" ++ pad2Int offsetHours ++ ":" ++ pad2Int offsetMinutes

/-- `formatDateString` from `fillable_fields_dates.go`. -/
def formatDateString (date : GoTime) (layout : String) : String :=
  let dateTimePart := goFormat date layout
  let timezonePart := tzSuffixCode date.offset
  dateTimePart ++ " " ++ timezonePart

/-- The timezone suffix as the spec states it: `GMT` for offset zero,
otherwise a sign followed by zero-padded absolute hours and minutes. -/
def tzSuffixSpec (offset : Int) : String :=
  if offset = 0 then "GMT"
  else
    (if offset < 0 then "-" else "+") ++
      pad2 (offset.natAbs / 3600) ++ ":" ++ pad2 (offset.natAbs % 3600 / 60)

/-! ## `fillable_fields_common.go`: hex encoding and UID matching -/

/-- Lowercase hex digit byte for a value `< 16` (Go `encoding/hex`). -/
def hexDigitB (n : Nat) : UInt8 :=
  if n < 10 then UInt8.ofNat (48 + n) else UInt8.ofNat (97 + (n - 10))

/-- Go `hex.EncodeToString([]byte s)`: two lowercase hex digits per byte. -/
def hexEncodeGo : GoStr → GoStr
  | [] => []
  | b :: rest => hexDigitB (b.toNat / 16) :: hexDigitB (b.toNat % 16) :: hexEncodeGo rest

/-- Value of one hex digit byte, accepting `0-9a-fA-F` as Go's
`hex.Decode` does. -/
def hexVal (b : UInt8) : Option Nat :=
  if 48 ≤ b && b ≤ 57 then some (b.toNat - 48)
  else if 97 ≤ b && b ≤ 102 then some (b.toNat - 97 + 10)
  else if 65 ≤ b && b ≤ 70 then some (b.toNat - 65 + 10)
  else none

/-- Go `hex.DecodeString`: fails (`err != nil`) on an odd-length input or
any non-hex byte; otherwise decodes pairwise. -/
def hexDecodeGo : GoStr → Option GoStr
  | [] => some []
  | [_] => none
  | a :: b :: rest =>
    match hexVal a, hexVal b, hexDecodeGo rest with
    | some ha, some hb, some tl => some (UInt8.ofNat (ha * 16 + hb) :: tl)
    | _, _, _ => none

/-- The two field-name patterns the repository compiles
(`fillable_fields_dates.go` / `fillable_fields_initials.go`); both have
the shape `<prefix>(\d+)_signer_(.+)`. -/
inductive FieldPattern where
  | dateId
  | initialsPage
deriving DecidableEq, Repr

/-- The literal prefix of the pattern (everything before the first capture
group, exactly what the fallback's `^([^\(]+)\(` regexp extracts). -/
def FieldPattern.patPre : FieldPattern → GoStr
  | .dateId => goStr "date_id_"
  | .initialsPage => goStr "initials_page_"

/-- Try to match `<pre>(\d+)_signer_(.+)` at the head of `l`, returning the
second capture group.  `\d+` is greedy (and nothing shorter can succeed,
since `_` is not a digit); `(.+)` greedily takes every byte up to the next
newline, per Go's `.` which excludes `\n`. -/
def tryMatchAt (pre : GoStr) (l : GoStr) : Option GoStr :=
  if pre.isPrefixOf l then
    let rest := l.drop pre.length
    let ds := rest.takeWhile isDigitB
    if ds.isEmpty then none
    else
      let rest2 := rest.drop ds.length
      if (goStr "_signer_").isPrefixOf rest2 then
        let tail := rest2.drop (goStr "_signer_").length
        let cap := tail.takeWhile (fun b => b != 10)
        if cap.isEmpty then none else some cap
      else none
  else none

/-- Go `regexp.FindStringSubmatch` for the patterns above: leftmost match
wins, scanning start positions left to right. -/
def findMatch (pre : GoStr) : GoStr → Option GoStr
  | [] => none
  | l@(_ :: t) =>
    match tryMatchAt pre l with
    | some cap => some cap
    | none => findMatch pre t

/-- Index of the first occurrence of `needle` (Go `strings.Index`),
`none` when absent. -/
def findSubIdx (needle : GoStr) : GoStr → Option Nat
  | [] => if needle.isEmpty then some 0 else none
  | l@(_ :: t) =>
    if needle.isPrefixOf l then some 0
    else (findSubIdx needle t).map (· + 1)

/-- Leftmost maximal run of hex digits
(Go `regexp.MustCompile(`+"`"+`[0-9a-fA-F]+`+"`"+`).FindString`);
empty when no hex digit occurs. -/
def hexRun : GoStr → GoStr
  | [] => []
  | b :: t => if isHexB b then b :: t.takeWhile isHexB else hexRun t

/-- The field-signer extraction phase of `matchFieldSigner`
(`fillable_fields_common.go` lines 159-191): the regexp capture when the
pattern matches, otherwise the prefix-guarded `signer_` fallback with a
hex-run tail. -/
def extractFieldSigner (decodedFieldName : GoStr) (p : FieldPattern) : Option GoStr :=
  match findMatch p.patPre decodedFieldName with
  | some cap => some cap
  | none =>
    if p.patPre.isPrefixOf decodedFieldName then
      match findSubIdx (goStr "signer_") decodedFieldName with
      | some idx =>
        let tail := decodedFieldName.drop (idx + (goStr "signer_").length)
        let hs := hexRun tail
        if hs.isEmpty then none else some hs
      | none => none
    else none

/-- `matchFieldSigner` from `fillable_fields_common.go`, specialised to the
two patterns the repository uses.  Extraction failures return
`(false, "")`; otherwise the extracted signer is compared literally, then
against `hex(uid)`, then hex-decoded and compared. -/
def matchFieldSigner (decodedFieldName : GoStr) (p : FieldPattern) (uid : GoStr) :
    Bool × GoStr :=
  match extractFieldSigner decodedFieldName p with
  | none => (false, [])
  | some fieldSigner =>
    if fieldSigner = uid then (true, fieldSigner)
    else if hexEncodeGo uid = fieldSigner then (true, fieldSigner)
    else
      match hexDecodeGo fieldSigner with
      | some bs => if bs = uid then (true, fieldSigner) else (false, fieldSigner)
      | none => (false, fieldSigner)

/-- The three accepted UID forms, as the spec words them: literal match,
hex-encoded UID match, or hex-decoded field value match. -/
def uidMatchSpec (s uid : GoStr) : Prop :=
  s = uid ∨ s = hexEncodeGo uid ∨ hexDecodeGo s = some uid

/-! ## `fillable_fields_common.go`: UTF-16 field-name decoding -/

/-- Go `utf16.Decode`: unpaired surrogates become U+FFFD; a valid
high/low pair is combined. -/
def utf16DecodeGo : List UInt16 → List Char
  | [] => []
  | [r] =>
    if r.toNat < 0xD800 || 0xE000 ≤ r.toNat then [Char.ofNat r.toNat]
    else [Char.ofNat 0xFFFD]
  | r :: r2 :: rest =>
    if r.toNat < 0xD800 || 0xE000 ≤ r.toNat then
      Char.ofNat r.toNat :: utf16DecodeGo (r2 :: rest)
    else if (0xD800 ≤ r.toNat && r.toNat < 0xDC00) &&
        (0xDC00 ≤ r2.toNat && r2.toNat < 0xE000) then
      Char.ofNat ((r.toNat - 0xD800) * 0x400 + (r2.toNat - 0xDC00) + 0x10000) ::
        utf16DecodeGo rest
    else Char.ofNat 0xFFFD :: utf16DecodeGo (r2 :: rest)

/-- Big-endian 16-bit code units from the bytes after the BOM; Go's loop
`for i := 2; i+1 < len(b); i += 2` drops a trailing odd byte. -/
def pairsBE : GoStr → List UInt16
  | a :: b :: rest => UInt16.ofNat (a.toNat * 256 + b.toNat) :: pairsBE rest
  | _ => []

/-- Little-endian 16-bit code units from the bytes after the BOM. -/
def pairsLE : GoStr → List UInt16
  | a :: b :: rest => UInt16.ofNat (b.toNat * 256 + a.toNat) :: pairsLE rest
  | _ => []

/-- Go `string([]rune)`: UTF-8 encode the decoded runes. -/
def encodeUTF8 (cs : List Char) : GoStr :=
  cs.flatMap String.utf8EncodeChar

/-- `decodeFieldName` from `fillable_fields_common.go`: a `0xFE 0xFF` BOM
selects UTF-16 BE, `0xFF 0xFE` selects UTF-16 LE, anything else is
returned unchanged. -/
def decodeFieldName (fieldName : GoStr) : GoStr :=
  match fieldName with
  | 0xfe :: 0xff :: rest => encodeUTF8 (utf16DecodeGo (pairsBE rest))
  | 0xff :: 0xfe :: rest => encodeUTF8 (utf16DecodeGo (pairsLE rest))
  | bs => bs

/-! ## PDF object model (the slice of `github.com/digitorus/pdf` the
filler consumes: resolved values with dictionary/array access) -/

/-- A resolved PDF value.  `obj id entries` is a dictionary together with
the indirect-object id it was resolved from (`0` for a direct object,
matching `Value.GetPtr().GetID()`). -/
inductive PdfVal where
  | null
  | int (n : Int)
  | real (q : ℚ)
  | str (bs : GoStr)
  | name (s : String)
  | arr (xs : List PdfVal)
  | obj (id : Nat) (entries : List (String × PdfVal))
deriving Repr

/-- `Value.Key`: dictionary lookup, `null` on anything else or a missing
key (PDF dictionaries have unique keys). -/
def PdfVal.key : PdfVal → String → PdfVal
  | .obj _ entries, k =>
    match entries.find? (fun p => p.1 == k) with
    | some p => p.2
    | none => .null
  | _, _ => .null

/-- `Value.IsNull`. -/
def PdfVal.isNull : PdfVal → Bool
  | .null => true
  | _ => false

/-- `Value.RawString`: the raw bytes of a string value, `""` otherwise. -/
def PdfVal.rawString : PdfVal → GoStr
  | .str bs => bs
  | _ => []

/-- `Value.Int64`: `0` on non-integers. -/
def PdfVal.int64 : PdfVal → Int
  | .int n => n
  | _ => 0

/-- `Value.Float64`: numeric values as a rational, `0` otherwise. -/
def PdfVal.float64 : PdfVal → ℚ
  | .real q => q
  | .int n => (n : ℚ)
  | _ => 0

/-- `Value.Len`: array length, `0` otherwise. -/
def PdfVal.lenA : PdfVal → Nat
  | .arr xs => xs.length
  | _ => 0

/-- `Value.Index`: array indexing, `null` out of range or on non-arrays. -/
def PdfVal.index : PdfVal → Nat → PdfVal
  | .arr xs, i => xs.getD i .null
  | _, _ => .null

/-- `Value.Kind() == pdf.Array`. -/
def PdfVal.isArray : PdfVal → Bool
  | .arr _ => true
  | _ => false

/-- `Value.Keys`: the dictionary's keys in order, `[]` otherwise. -/
def PdfVal.keysOf : PdfVal → List String
  | .obj _ entries => entries.map Prod.fst
  | _ => []

/-- `Value.GetPtr().GetID()`: `0` for direct objects. -/
def PdfVal.ptrId : PdfVal → Nat
  | .obj id _ => id
  | _ => 0

/-- The elements iterated by `for k := 0; k < kids.Len(); k++`. -/
def PdfVal.elems : PdfVal → List PdfVal
  | .arr xs => xs
  | _ => []

/-! ## `fillable_fields_common.go`: `normalizeDA` -/

/-- `\s*Tf` check: skip regexp white space, then require the literal
`Tf`. -/
def tfAfterSp (l : GoStr) : Bool :=
  (goStr "Tf").isPrefixOf (l.dropWhile isReSpaceB)

/-- Try to match `([0-9]+(?:\.[0-9]+)?)\s*Tf` at the head of `l`,
returning the number capture.  The integer part is greedy; the optional
fractional group is tried greedily and dropped if `\s*Tf` does not follow
(Go regexp backtracking). -/
def tryNumAt (l : GoStr) : Option GoStr :=
  let ds := l.takeWhile isDigitB
  if ds.isEmpty then none
  else
    let rest := l.drop ds.length
    match rest with
    | 46 :: r2 =>
      let fs := r2.takeWhile isDigitB
      if !fs.isEmpty && tfAfterSp (r2.drop fs.length) then some (ds ++ 46 :: fs)
      else if tfAfterSp rest then some ds
      else none
    | _ => if tfAfterSp rest then some ds else none

/-- Leftmost match of `([0-9]+(?:\.[0-9]+)?)\s*Tf`
(`regexp.FindStringSubmatch`, capture group 1). -/
def findNumTf : GoStr → Option GoStr
  | [] => none
  | l@(_ :: t) =>
    match tryNumAt l with
    | some m => some m
    | none => findNumTf t

/-- `normalizeDA` from `fillable_fields_common.go`: collapse `\r`/`\n` to
spaces, extract a font size before `Tf` (default `"10"`), and rebuild the
string as `/F1 <size> Tf 0 0 0 rg`.  The `len(parts) > 0` guard is the
`strings.Fields` emptiness test. -/
def normalizeDA (raw : GoStr) : GoStr :=
  let s := raw.map (fun b => if b == 13 || b == 10 then (32 : UInt8) else b)
  let size :=
    if s.any (fun b => !isReSpaceB b) then
      match findNumTf s with
      | some m => m
      | none => goStr "10"
    else goStr "10"
  goStr "/F1 " ++ size ++ goStr " Tf 0 0 0 rg"

/-! ## `fillable_fields_common.go`: appearance streams -/

/-- Digit scanning for `parseDecQ`: integer part, fraction digits value,
and fraction length, all over `Nat` so that concrete inputs evaluate in
the kernel. -/
def parseDecParts (s : GoStr) : Option (Nat × Nat × Nat) :=
  let ds := s.takeWhile isDigitB
  if ds.isEmpty then none
  else
    let intPart : Nat := ds.foldl (fun acc b => acc * 10 + (b.toNat - 48)) 0
    match s.drop ds.length with
    | [] => some (intPart, 0, 0)
    | 46 :: fs =>
      if fs ≠ [] && fs.all isDigitB then
        some (intPart, fs.foldl (fun acc b => acc * 10 + (b.toNat - 48)) 0, fs.length)
      else none
    | _ => none

/-- Value of a decimal byte string `[0-9]+(\.[0-9]+)?`
(Go `strconv.ParseFloat` on the regexp capture, which always succeeds). -/
def parseDecQ (s : GoStr) : Option ℚ :=
  (parseDecParts s).map (fun p => (p.1 : ℚ) + (p.2.1 : ℚ) / ((10 : ℚ) ^ p.2.2))

/-- The content-stream operators `createTextFieldAppearance` writes, in
order; numeric operands are kept exact (serialisation would print them
with `%.1f`). -/
inductive PdfOp where
  | qSave
  | qRestore
  | rgOp (r g b : ℚ)
  | reOp (x y w h : ℚ)
  | fFill
  | btOp
  | etOp
  | tfOp (fontName : String) (size : ℚ)
  | tdOp (x y : ℚ)
  | tjOp (text : GoStr)
deriving DecidableEq, Repr

/-- The `/N` appearance form XObject: `/BBox [0 0 w h]`, the fixed
`/F1 → Helvetica` font resource, and the content stream. -/
structure AppearanceXObject where
  bboxW : ℚ
  bboxH : ℚ
  ops : List PdfOp
deriving DecidableEq, Repr

/-- A widget rectangle `[x0 y0 x1 y1]`. -/
structure Rect4 where
  x0 : ℚ
  y0 : ℚ
  x1 : ℚ
  y1 : ℚ
deriving DecidableEq, Repr

/-- The font size extracted from a DA string inside
`createTextFieldAppearance`: the regexp capture before `Tf` parsed by
`strconv.ParseFloat`, defaulting to `10.0`. -/
def daFontSize (da : GoStr) : ℚ :=
  match findNumTf da with
  | some m =>
    match parseDecQ m with
    | some q => q
    | none => 10
  | none => 10

/-- The font size computed inside `createTextFieldAppearance`: the size
extracted from the DA string (default 10), clamped to `0.7 * height`,
then multiplied by `fontScale` when positive and clamped again. -/
def appearanceFontSize (da : GoStr) (height : ℚ) (fontScale : ℚ) : ℚ :=
  let fontSize0 : ℚ := daFontSize da
  let maxFontSize := height * (7 / 10)
  let fontSize1 := if fontSize0 > maxFontSize then maxFontSize else fontSize0
  if fontScale > 0 then
    let fontSize2 := fontSize1 * fontScale
    if fontSize2 > maxFontSize then maxFontSize else fontSize2
  else fontSize1

/-- `createTextFieldAppearance` from `fillable_fields_common.go`.  Errors
exactly when the rectangle has non-positive width or height; otherwise
produces the white-background/centred-text stream and the XObject
wrapper. -/
def createTextFieldAppearance (text : GoStr) (rect : Rect4) (da : GoStr)
    (fontScale : ℚ) : Except String AppearanceXObject :=
  let width := rect.x1 - rect.x0
  let height := rect.y1 - rect.y0
  if width ≤ 0 || height ≤ 0 then .error "invalid rectangle dimensions"
  else
    let fontSize := appearanceFontSize da height fontScale
    let textWidth := (text.length : ℚ) * fontSize * (6 / 10)
    let textX0 := (width - textWidth) / 2
    let textX := if textX0 < 1 then 1 else textX0
    let textY := (height - fontSize) / 2 + fontSize * (2 / 10)
    .ok
      { bboxW := width
        bboxH := height
        ops :=
          [.qSave, .rgOp 1 1 1, .reOp 0 0 width height, .fFill, .btOp,
           .tfOp "F1" fontSize, .rgOp 0 0 0, .tdOp textX textY, .tjOp text,
           .etOp, .qRestore] }

/-! ## `fillable_fields_common.go`: field updates and the fill loop -/

/-- What `updateFieldObject` writes for one dictionary entry of the
replacement object.  `pstr` is a value written through `pdfString`,
`intv` a numeric `/Ff` value, `apRef` the `/AP << /N id 0 R >>`
reference, and `serialized` an existing value copied through
`serializeCatalogEntry`. -/
inductive EmittedVal where
  | pstr (bs : GoStr)
  | intv (n : Int)
  | apRef (id : Nat)
  | serialized (v : PdfVal)
deriving Repr

/-- The mutable signing state the filler touches: the id counter for
`addObject`, the objects appended by `addObject`, and the replacement
dictionaries recorded by `updateObject`. -/
structure SignContext where
  nextObjId : Nat
  addedObjects : List (Nat × AppearanceXObject)
  updatedObjects : List (Nat × List (String × EmittedVal))
deriving Repr

/-- `SignContext.addObject`: allocate the next id and append the object
(write errors cannot occur in the model). -/
def SignContext.addObject (ctx : SignContext) (x : AppearanceXObject) :
    Nat × SignContext :=
  (ctx.nextObjId,
   { ctx with
      nextObjId := ctx.nextObjId + 1
      addedObjects := ctx.addedObjects ++ [(ctx.nextObjId, x)] })

/-- `SignContext.updateObject`: record the replacement dictionary for an
object id. -/
def SignContext.updateObject (ctx : SignContext) (id : Nat)
    (dict : List (String × EmittedVal)) : SignContext :=
  { ctx with updatedObjects := ctx.updatedObjects ++ [(id, dict)] }

/-- `getFieldRect` from `fillable_fields_common.go`: the first kid's
`/Rect` when present and well-formed, else the `[0,0,100,20]` default. -/
def getFieldRect (field : PdfVal) : Rect4 :=
  let dflt : Rect4 := ⟨0, 0, 100, 20⟩
  let kids := field.key "Kids"
  if !kids.isNull && kids.lenA > 0 then
    let firstKid := kids.index 0
    let rectVal := firstKid.key "Rect"
    if !rectVal.isNull && rectVal.isArray && rectVal.lenA ≥ 4 then
      ⟨(rectVal.index 0).float64, (rectVal.index 1).float64,
       (rectVal.index 2).float64, (rectVal.index 3).float64⟩
    else dflt
  else dflt

/-- A widget's own `/Rect`, with the same `[0,0,100,20]` default
(the kid branch of `updateFieldObject`). -/
def kidRect (kid : PdfVal) : Rect4 :=
  let rectVal := kid.key "Rect"
  if !rectVal.isNull && rectVal.isArray && rectVal.lenA ≥ 4 then
    ⟨(rectVal.index 0).float64, (rectVal.index 1).float64,
     (rectVal.index 2).float64, (rectVal.index 3).float64⟩
  else ⟨0, 0, 100, 20⟩

/-- The key loop of `updateFieldObject` (run identically for the parent
field and for each kid): walk the existing keys, skipping `/V` and `/Ff`
(whose old value is remembered), regenerating `/AP` when the appearance
builds, decoding `/T`, normalising `/DA`, and copying everything else.
Returns the emitted entries, the threaded context, and the remembered
`/Ff` value with its presence flag. -/
def buildLoop (v : PdfVal) (rect : Rect4) (value : GoStr) (scale : ℚ) :
    List String → SignContext →
    List (String × EmittedVal) × SignContext × Int × Bool
  | [], ctx => ([], ctx, 0, false)
  | k :: ks, ctx =>
    if k = "V" then buildLoop v rect value scale ks ctx
    else if k = "Ff" then
      let r := buildLoop v rect value scale ks ctx
      (r.1, r.2.1, (v.key "Ff").int64, true)
    else if k = "AP" then
      match createTextFieldAppearance value rect (normalizeDA (v.key "DA").rawString) scale with
      | .ok ap =>
        let apObjectId := (ctx.addObject ap).1
        let r := buildLoop v rect value scale ks (ctx.addObject ap).2
        (("AP", .apRef apObjectId) :: r.1, r.2)
      | .error _ => buildLoop v rect value scale ks ctx
    else if k = "T" then
      let r := buildLoop v rect value scale ks ctx
      (("T", .pstr (decodeFieldName (v.key "T").rawString)) :: r.1, r.2)
    else if k = "DA" then
      let r := buildLoop v rect value scale ks ctx
      (("DA", .pstr (normalizeDA (v.key "DA").rawString)) :: r.1, r.2)
    else
      let r := buildLoop v rect value scale ks ctx
      ((k, .serialized (v.key k)) :: r.1, r.2)

/-- The full replacement dictionary for one object: the key loop's
entries followed by `/Ff` (with the ReadOnly bit 2 OR-ed in when
requested), `/V`, and `/AS`. -/
def buildUpdatedDict (ctx : SignContext) (v : PdfVal) (rect : Rect4)
    (value : GoStr) (makeReadOnly : Bool) (scale : ℚ) :
    List (String × EmittedVal) × SignContext :=
  let r := buildLoop v rect value scale v.keysOf ctx
  let existingFf := r.2.2.1
  let hasFf := r.2.2.2
  let ffEntries :=
    if makeReadOnly then [("Ff", EmittedVal.intv (Int.lor existingFf 2))]
    else if hasFf then [("Ff", EmittedVal.intv existingFf)]
    else []
  (r.1 ++ ffEntries ++ [("V", .pstr value), ("AS", .pstr value)], r.2.1)

/-- Process the `Kids` array of a field: each indirect kid gets its own
replacement dictionary, built against its own `/Rect`. -/
def processKids (value : GoStr) (makeReadOnly : Bool) (scale : ℚ) :
    List PdfVal → SignContext → SignContext
  | [], ctx => ctx
  | kid :: rest, ctx =>
    if kid.ptrId = 0 then processKids value makeReadOnly scale rest ctx
    else
      let r := buildUpdatedDict ctx kid (kidRect kid) value makeReadOnly scale
      processKids value makeReadOnly scale rest (r.2.updateObject kid.ptrId r.1)

/-- `updateFieldObject` from `fillable_fields_common.go`: replace the
parent dictionary when the field is indirect, then update every indirect
kid widget. -/
def updateFieldObject (ctx : SignContext) (field : PdfVal) (value : GoStr)
    (makeReadOnly : Bool) (scale : ℚ) : SignContext :=
  let ctx1 :=
    if field.ptrId = 0 then ctx
    else
      let r := buildUpdatedDict ctx field (getFieldRect field) value makeReadOnly scale
      r.2.updateObject field.ptrId r.1
  processKids value makeReadOnly scale (field.key "Kids").elems ctx1

/-- The per-field step of the `fillFormFields` loop: skip fields without
`/T`, decode the name, and update on a signer match. -/
def fillFieldStep (uid : GoStr) (p : FieldPattern) (value : GoStr)
    (makeReadOnly : Bool) (scale : ℚ) (ctx : SignContext) (field : PdfVal) :
    SignContext :=
  if (field.key "T").isNull then ctx
  else
    let decodedFieldName := decodeFieldName (field.key "T").rawString
    if (matchFieldSigner decodedFieldName p uid).1 then
      updateFieldObject ctx field value makeReadOnly scale
    else ctx

/-- The configuration the filler reads from the signing context:
`SignData.Appearance` and `SignData.Signature.Info`, plus the document's
`Root.AcroForm` value. -/
structure FillEnv where
  signerUID : GoStr
  dateFormat : String
  locale : String
  signerName : String
  sigDate : GoTime
  acroForm : PdfVal

/-- `fillFormFields` from `fillable_fields_common.go` (`getValue` is pure
for both callers, so the value is passed directly): guard on an empty
UID, an empty value, a null `AcroForm`, and a null `Fields`, then fold
the per-field step over the fields array. -/
def fillFormFields (env : FillEnv) (ctx : SignContext) (p : FieldPattern)
    (value : GoStr) (makeReadOnly : Bool) (scale : ℚ) : SignContext :=
  if env.signerUID = [] then ctx
  else if value = [] then ctx
  else if env.acroForm.isNull then ctx
  else if (env.acroForm.key "Fields").isNull then ctx
  else
    (env.acroForm.key "Fields").elems.foldl
      (fillFieldStep env.signerUID p value makeReadOnly scale) ctx

/-- Initials computed by `fillInitialsFields`: first rune of each
whitespace-separated part of the name, upper-cased (`unicode.ToUpper`,
modelled by `Char.toUpper`). -/
def computeInitials (name : String) : String :=
  ⟨(goFields name).filterMap (fun p => p.data.head?.map Char.toUpper)⟩

/-- `fillInitialsFields` from `fillable_fields_initials.go`: no appearance
font scaling is applied for initials fields. -/
def fillInitialsFields (env : FillEnv) (ctx : SignContext) : SignContext :=
  if env.signerName = "" then ctx
  else
    fillFormFields env ctx .initialsPage (goStr (computeInitials env.signerName)) true 0

/-- `dateFieldFontScale` from `fillable_fields_dates.go`. -/
def dateFieldFontScale : ℚ := 1.2

/-- `fillDateFields` from `fillable_fields_dates.go`. -/
def fillDateFields (env : FillEnv) (ctx : SignContext) : SignContext :=
  if env.sigDate.isZero then ctx
  else
    let layout := resolveDateLayout env.dateFormat env.locale
    fillFormFields env ctx .dateId (goStr (formatDateString env.sigDate layout))
      true dateFieldFontScale

/-! ## `verify`: options, HTTP client, and external revocation checks -/

/-- The proxy function installed on a transport. -/
inductive ProxySetting where
  | fromEnvironment
  | url (u : String)
deriving DecidableEq, Repr

/-- The slice of `http.Transport` the code touches. -/
structure HTTPTransport where
  proxy : ProxySetting
deriving DecidableEq, Repr

/-- `http.Client.Transport` is an interface; only `*http.Transport`
values are reconfigured, anything else is left alone. -/
inductive RoundTripper where
  | std (t : HTTPTransport)
  | other (tag : Nat)
deriving DecidableEq, Repr

/-- The slice of `http.Client` the code touches; `timeout` is a
`time.Duration` in nanoseconds. -/
structure HTTPClient where
  timeout : Int
  transport : Option RoundTripper
deriving DecidableEq, Repr

/-- The fields of `VerifyOptions` (`verify/types.go`) that the external
revocation path consults. -/
structure VerifyOptions where
  enableExternalRevocationCheck : Bool
  httpClient : Option HTTPClient
  httpTimeout : Int
  proxyURL : Option String
deriving DecidableEq, Repr

/-- `time.Second` in nanoseconds. -/
def goSecond : Int := 1000000000

/-- `configureProxy`: an explicit `ProxyURL` wins, otherwise the
environment proxy function is installed. -/
def configureProxy (t : HTTPTransport) (options : VerifyOptions) : HTTPTransport :=
  match options.proxyURL with
  | some u => { t with proxy := .url u }
  | none => { t with proxy := .fromEnvironment }

/-- `http.DefaultTransport.(*http.Transport).Clone()` as a fresh
environment-proxy transport. -/
def defaultTransportClone : HTTPTransport := ⟨.fromEnvironment⟩

/-- `getHTTPClient` from the `verify` package: resolve the timeout
(default 10 s), clone any custom client with the resolved timeout, and
ensure proxy support on `*http.Transport` transports. -/
def getHTTPClient (options : VerifyOptions) : HTTPClient :=
  let timeout := if options.httpTimeout = 0 then 10 * goSecond else options.httpTimeout
  match options.httpClient with
  | some c0 =>
    let client := { c0 with timeout := timeout }
    match client.transport with
    | none => { client with transport := some (.std (configureProxy defaultTransportClone options)) }
    | some (.std t) => { client with transport := some (.std (configureProxy t options)) }
    | some (.other tag) => { client with transport := some (.other tag) }
  | none => { timeout := timeout, transport := some (.std (configureProxy defaultTransportClone options)) }

/-- The certificate fields the external checks consult. -/
structure Certificate where
  ocspServer : List String
  crlDistributionPoints : List String
  serialNumber : Int
deriving DecidableEq, Repr

/-- A parsed OCSP response (opaque to the checker beyond its identity). -/
structure OCSPResp where
  tag : Nat
deriving DecidableEq, Repr

/-- One entry of a CRL's `RevokedCertificateEntries`. -/
structure CRLEntry where
  serialNumber : Int
  revocationTime : GoTime
deriving DecidableEq, Repr

/-- A parsed revocation list. -/
structure CRLList where
  revoked : List CRLEntry
deriving DecidableEq, Repr

/-- `ExternalOCSPResult` (`verify/types.go`). -/
structure ExternalOCSPResult where
  checked : Bool
  valid : Bool
  response : Option OCSPResp
  warning : String
deriving DecidableEq, Repr

/-- `ExternalCRLResult` (`verify/types.go`). -/
structure ExternalCRLResult where
  checked : Bool
  valid : Bool
  isRevoked : Bool
  revocationTime : Option GoTime
  warning : String
deriving DecidableEq, Repr

/-- The outcome of one HTTP exchange: status code plus the body read
(which can itself fail). -/
structure HTTPResp where
  status : Nat
  bodyRead : Except String GoStr
deriving Repr

/-- The I/O environment of the OCSP check: request creation (covering
both `ocsp.CreateRequest` and an injected `ocspRequestFunc`), the POST
exchange per URL, and response parsing.  Deferred `Body.Close` errors
only mutate `lastErr` after the return value is fixed, so they never
reach the result and are not modelled. -/
structure OCSPEnv where
  createReq : Except String GoStr
  post : String → Except String HTTPResp
  parse : GoStr → Except String OCSPResp

/-- The I/O environment of the CRL check: the GET exchange per URL and
`x509.ParseRevocationList`. -/
structure CRLEnv where
  get : String → Except String HTTPResp
  parse : GoStr → Except String CRLList

/-- The server loop of `performExternalOCSPCheckWithFunc`: try each URL,
remembering the last error; on the first fully successful exchange return
a valid result carrying the parsed response.  Also returns the list of
URLs actually contacted. -/
def ocspServerLoop (env : OCSPEnv) (lastErr : Option String) :
    List String → ExternalOCSPResult × List String
  | [] =>
    ({ checked := true, valid := false, response := none,
       warning := match lastErr with
         | some e => e
         | none => "failed to retrieve OCSP response from all servers" }, [])
  | serverURL :: rest =>
    let step : Option String → ExternalOCSPResult × List String := fun e =>
      let (r, tr) := ocspServerLoop env e rest
      (r, serverURL :: tr)
    match env.post serverURL with
    | .error e => step (some ("failed to contact OCSP server " ++ serverURL ++ ": " ++ e))
    | .ok resp =>
      if resp.status ≠ 200 then
        step (some ("OCSP server " ++ serverURL ++ " returned status " ++ toString resp.status))
      else
        match resp.bodyRead with
        | .error e => step (some ("failed to read OCSP response from " ++ serverURL ++ ": " ++ e))
        | .ok body =>
          match env.parse body with
          | .error e => step (some ("failed to parse OCSP response from " ++ serverURL ++ ": " ++ e))
          | .ok ocspResp =>
            ({ checked := true, valid := true, response := some ocspResp, warning := "" },
             [serverURL])

/-- `performExternalOCSPCheckWithFunc` from the `verify` package, paired
with the list of server URLs contacted. -/
def performExternalOCSPCheckWithFunc (cert : Certificate) (options : VerifyOptions)
    (env : OCSPEnv) : ExternalOCSPResult × List String :=
  if !options.enableExternalRevocationCheck then
    ({ checked := true, valid := false, response := none,
       warning := "external revocation checking is disabled" }, [])
  else if cert.ocspServer.isEmpty then
    ({ checked := true, valid := false, response := none,
       warning := "certificate has no OCSP server URLs" }, [])
  else
    match env.createReq with
    | .error e =>
      ({ checked := true, valid := false, response := none,
         warning := "failed to create OCSP request: " ++ e }, [])
    | .ok _ => ocspServerLoop env none cert.ocspServer

/-- The distribution-point loop of `performExternalCRLCheck`: on the
first successfully parsed CRL, scan `RevokedCertificateEntries` for the
certificate's serial number. -/
def crlServerLoop (env : CRLEnv) (serial : Int) (lastErr : Option String) :
    List String → ExternalCRLResult × List String
  | [] =>
    ({ checked := true, valid := false, isRevoked := false, revocationTime := none,
       warning := match lastErr with
         | some e => e
         | none => "failed to retrieve CRL from all distribution points" }, [])
  | crlURL :: rest =>
    let step : Option String → ExternalCRLResult × List String := fun e =>
      let (r, tr) := crlServerLoop env serial e rest
      (r, crlURL :: tr)
    match env.get crlURL with
    | .error e => step (some ("failed to download CRL from " ++ crlURL ++ ": " ++ e))
    | .ok resp =>
      if resp.status ≠ 200 then
        step (some ("CRL server " ++ crlURL ++ " returned status " ++ toString resp.status))
      else
        match resp.bodyRead with
        | .error e => step (some ("failed to read CRL from " ++ crlURL ++ ": " ++ e))
        | .ok body =>
          match env.parse body with
          | .error e => step (some ("failed to parse CRL from " ++ crlURL ++ ": " ++ e))
          | .ok crl =>
            match crl.revoked.find? (fun rc => rc.serialNumber == serial) with
            | some rc =>
              ({ checked := true, valid := true, isRevoked := true,
                 revocationTime := some rc.revocationTime, warning := "" }, [crlURL])
            | none =>
              ({ checked := true, valid := true, isRevoked := false,
                 revocationTime := none, warning := "" }, [crlURL])

/-- `performExternalCRLCheck` from the `verify` package, paired with the
list of distribution points contacted. -/
def performExternalCRLCheck (cert : Certificate) (options : VerifyOptions)
    (env : CRLEnv) : ExternalCRLResult × List String :=
  if !options.enableExternalRevocationCheck then
    ({ checked := true, valid := false, isRevoked := false, revocationTime := none,
       warning := "external revocation checking is disabled" }, [])
  else if cert.crlDistributionPoints.isEmpty then
    ({ checked := true, valid := false, isRevoked := false, revocationTime := none,
       warning := "certificate has no CRL distribution points" }, [])
  else crlServerLoop env cert.serialNumber none cert.crlDistributionPoints

/-! ## Spec-side predicates for the amended C6 -/

/-- The per-key facts the replacement dictionary must satisfy (shared by
the parent field and each kid widget): non-special keys are copied,
`/T` is decoded, `/DA` is normalised, and an existing `/AP` with a
positive-size rectangle is replaced by a reference to a freshly added
appearance XObject whose stream paints a white background and the text
with the computed font size. -/
def entryProps (v : PdfVal) (rect : Rect4) (value : GoStr) (scale : ℚ) (k : String)
    (es : List (String × EmittedVal)) (added : List (Nat × AppearanceXObject)) : Prop :=
  (k ∉ ["V", "Ff", "AP", "T", "DA"] →
    (k, EmittedVal.serialized (v.key k)) ∈ es) ∧
  (k = "T" →
    ("T", EmittedVal.pstr (decodeFieldName (v.key "T").rawString)) ∈ es) ∧
  (k = "DA" →
    ("DA", EmittedVal.pstr (normalizeDA (v.key "DA").rawString)) ∈ es) ∧
  (k = "AP" → 0 < rect.x1 - rect.x0 → 0 < rect.y1 - rect.y0 →
    ∃ apId xobj tx ty,
      ("AP", EmittedVal.apRef apId) ∈ es ∧
      (apId, xobj) ∈ added ∧
      xobj.bboxW = rect.x1 - rect.x0 ∧ xobj.bboxH = rect.y1 - rect.y0 ∧
      xobj.ops = [.qSave, .rgOp 1 1 1,
        .reOp 0 0 (rect.x1 - rect.x0) (rect.y1 - rect.y0), .fFill, .btOp,
        .tfOp "F1" (appearanceFontSize (normalizeDA (v.key "DA").rawString)
          (rect.y1 - rect.y0) scale),
        .rgOp 0 0 0, .tdOp tx ty, .tjOp value, .etOp, .qRestore])

/-- Spec-side description of one emitted replacement dictionary (the
amended C6): `/V` and `/AS` carry the fill value, the pre-existing `/Ff`
is emitted with the ReadOnly bit OR-ed in when requested, every other
existing key except `/AP` is present (non-special ones with their
original value), and an existing `/AP` is replaced by a reference to a
newly added appearance XObject when the rectangle is positive. -/
def dictSpec (v : PdfVal) (rect : Rect4) (value : GoStr) (makeReadOnly : Bool)
    (scale : ℚ) (d : List (String × EmittedVal))
    (added : List (Nat × AppearanceXObject)) : Prop :=
  ("V", EmittedVal.pstr value) ∈ d ∧
  ("AS", EmittedVal.pstr value) ∈ d ∧
  (makeReadOnly = true → ("Ff", EmittedVal.intv (Int.lor ((v.key "Ff").int64) 2)) ∈ d) ∧
  (∀ k ∈ v.keysOf, k ∉ ["V", "Ff", "AP", "T", "DA"] →
    (k, EmittedVal.serialized (v.key k)) ∈ d) ∧
  ("T" ∈ v.keysOf → ("T", EmittedVal.pstr (decodeFieldName (v.key "T").rawString)) ∈ d) ∧
  ("DA" ∈ v.keysOf → ("DA", EmittedVal.pstr (normalizeDA (v.key "DA").rawString)) ∈ d) ∧
  ("AP" ∈ v.keysOf → 0 < rect.x1 - rect.x0 → 0 < rect.y1 - rect.y0 →
    ∃ apId xobj tx ty,
      ("AP", EmittedVal.apRef apId) ∈ d ∧ (apId, xobj) ∈ added ∧
      xobj.bboxW = rect.x1 - rect.x0 ∧ xobj.bboxH = rect.y1 - rect.y0 ∧
      xobj.ops = [.qSave, .rgOp 1 1 1,
        .reOp 0 0 (rect.x1 - rect.x0) (rect.y1 - rect.y0), .fFill, .btOp,
        .tfOp "F1" (appearanceFontSize (normalizeDA (v.key "DA").rawString)
          (rect.y1 - rect.y0) scale),
        .rgOp 0 0 0, .tdOp tx ty, .tjOp value, .etOp, .qRestore])

/-! ## Helper lemmas -/

theorem pad2Int_ofNat (k : Nat) : pad2Int (Int.ofNat k) = pad2 k := rfl

theorem tz_code_eq_spec (offset : Int) : tzSuffixCode offset = tzSuffixSpec offset := by
  unfold tzSuffixCode tzSuffixSpec
  rcases offset with n | m
  · by_cases h0 : (Int.ofNat n) = 0
    · rw [if_pos h0, if_pos h0]
    · have hn : ¬ (Int.ofNat n < 0) := by
        rw [Int.ofNat_eq_natCast]; omega
      rw [if_neg h0, if_neg h0, if_neg hn, if_neg hn]
      have h1 : (Int.ofNat n).tdiv 3600 = Int.ofNat (n / 3600) := rfl
      have h2 : ((Int.ofNat n).tmod 3600).tdiv 60 = Int.ofNat (n % 3600 / 60) := rfl
      have h6 : (Int.ofNat n).natAbs = n := rfl
      simp only [h1, h2, pad2Int_ofNat, h6]
  · have h0 : ¬ (Int.negSucc m = 0) := by
      intro h; cases h
    have hneg : Int.negSucc m < 0 := Int.negSucc_lt_zero m
    rw [if_neg h0, if_neg h0, if_pos hneg, if_pos hneg]
    have h1 : (Int.negSucc m).tdiv 3600 = -Int.ofNat ((m+1) / 3600) := rfl
    have h2 : (Int.negSucc m).tmod 3600 = -Int.ofNat ((m+1) % 3600) := rfl
    have h3 : ((Int.negSucc m).tmod 3600).tdiv 60 = -Int.ofNat ((m+1) % 3600 / 60) := by
      rw [h2, Int.neg_tdiv]
      rfl
    have h4 : (Int.negSucc m).natAbs = m + 1 := rfl
    have h5 : (if ((Int.negSucc m).tmod 3600).tdiv 60 < 0 then -((Int.negSucc m).tmod 3600).tdiv 60
        else ((Int.negSucc m).tmod 3600).tdiv 60) = Int.ofNat ((m+1) % 3600 / 60) := by
      rw [h3, Int.ofNat_eq_natCast]
      split <;> omega
    simp only [h1, h5, h4, neg_neg, pad2Int_ofNat]

theorem trim_empty_all_space (l : String) (h : goTrimSpace l = "") :
    ∀ c ∈ l.data, goIsSpace c = true := by
  intro c hc
  have hdata : ((l.data.dropWhile goIsSpace).reverse.dropWhile goIsSpace).reverse = [] := by
    have := congrArg String.data h
    simpa [goTrimSpace] using this
  rw [List.reverse_eq_nil_iff] at hdata
  have hdrop : ∀ x ∈ l.data.dropWhile goIsSpace, goIsSpace x = true := by
    intro x hx
    exact List.dropWhile_eq_nil_iff.mp hdata x (List.mem_reverse.mpr hx)
  have hsplit : l.data = l.data.takeWhile goIsSpace ++ l.data.dropWhile goIsSpace :=
    (List.takeWhile_append_dropWhile goIsSpace l.data).symm
  rw [hsplit] at hc
  rcases List.mem_append.mp hc with h1 | h1
  · exact List.mem_takeWhile_imp h1
  · exact hdrop c h1

theorem norm_of_all_space (l : String) (h : ∀ c ∈ l.data, goIsSpace c = true) :
    normLocale l = l := by
  unfold normLocale
  have heq : l.data.map (fun c => if c == '_' then '-' else c) = l.data := by
    rw [show l.data.map (fun c => if c == '_' then '-' else c) =
        l.data.map id from List.map_congr_left ?_, List.map_id]
    intro c hc
    have hws := h c hc
    have hne : ¬ (c == '_') = true := by
      intro hq
      rw [show c = '_' from by simpa using hq] at hws
      simp [goIsSpace] at hws
    simp [hne]
  rw [heq]

theorem lookup_key_has_nonspace (k layout : String) (h : localeLookup k = some layout) :
    ∃ c ∈ k.data, goIsSpace c = false := by
  unfold localeLookup at h
  rcases hf : localeToDateLayout.find? (fun p => p.1 == k) with _ | pr
  · rw [hf] at h; cases h
  · have hmem := List.mem_of_find?_eq_some hf
    have hp := List.find?_some hf
    have hk : pr.1 = k := by simpa using hp
    simp only [localeToDateLayout, List.mem_cons, List.not_mem_nil, or_false] at hmem
    rcases hmem with rfl | rfl | rfl | rfl | rfl | rfl | rfl | rfl | rfl | rfl | rfl | rfl <;>
      (rw [← hk]; decide)

/-! ## Claim theorems -/

/-- C4: `resolveDateLayout` returns `dateFormat` whenever it is non-empty
after trimming white space; otherwise, when the locale (with underscores
normalised to hyphens, or as given) appears in the built-in locale table,
it returns that table's layout; otherwise it returns the default layout
`01/02/2006 15:04`. -/
theorem c4_resolveDateLayout_spec (dateFormat locale layout : String) :
    (goTrimSpace dateFormat ≠ "" → resolveDateLayout dateFormat locale = dateFormat) ∧
    (goTrimSpace dateFormat = "" →
      localeLookup (normLocale locale) = some layout →
      resolveDateLayout dateFormat locale = layout) ∧
    (goTrimSpace dateFormat = "" → localeLookup (normLocale locale) = none →
      localeLookup locale = some layout →
      resolveDateLayout dateFormat locale = layout) ∧
    (goTrimSpace dateFormat = "" → localeLookup (normLocale locale) = none →
      localeLookup locale = none →
      resolveDateLayout dateFormat locale = "01/02/2006 15:04") := by
  refine ⟨?_, ?_, ?_, ?_⟩
  · intro h
    unfold resolveDateLayout
    rw [if_pos h]
  · intro h hl
    have hne : goTrimSpace locale ≠ "" := by
      intro he
      have hall := trim_empty_all_space locale he
      have hnorm := norm_of_all_space locale hall
      rw [hnorm] at hl
      obtain ⟨c, hc, hcs⟩ := lookup_key_has_nonspace locale layout hl
      rw [hall c hc] at hcs
      cases hcs
    unfold resolveDateLayout
    rw [if_neg (by simpa using h), if_pos hne, hl]
  · intro h hn hl
    have hne : goTrimSpace locale ≠ "" := by
      intro he
      have hall := trim_empty_all_space locale he
      obtain ⟨c, hc, hcs⟩ := lookup_key_has_nonspace locale layout hl
      rw [hall c hc] at hcs
      cases hcs
    unfold resolveDateLayout
    rw [if_neg (by simpa using h), if_pos hne, hn, hl]
  · intro h hn hl
    unfold resolveDateLayout
    rw [if_neg (by simpa using h)]
    by_cases hne : goTrimSpace locale ≠ ""
    · rw [if_pos hne, hn, hl]
    · rw [if_neg hne]

/-- Witness for C4: concrete inputs exercising the explicit-format,
table-lookup, and default branches. -/
theorem c4_resolveDateLayout_witness :
    resolveDateLayout "02.01.2006 15:04" "fr-FR" = "02.01.2006 15:04" ∧
    resolveDateLayout "" "de_DE" = "02.01.2006 15:04" ∧
    resolveDateLayout "" "nl-NL" = "01/02/2006 15:04" :=
  ⟨(c4_resolveDateLayout_spec "02.01.2006 15:04" "fr-FR" "x").1 (by decide),
   (c4_resolveDateLayout_spec "" "de_DE" "02.01.2006 15:04").2.1 (by decide) (by decide),
   (c4_resolveDateLayout_spec "" "nl-NL" "x").2.2.2 (by decide) (by decide) (by decide)⟩

/-- C5: `formatDateString` returns the layout-formatted date-time, one
space, and a timezone suffix which is `GMT` for offset zero and otherwise
a sign followed by zero-padded non-negative hours and minutes `±HH:MM`. -/
theorem c5_formatDateString_spec (date : GoTime) (layout : String) :
    formatDateString date layout = goFormat date layout ++ " " ++ tzSuffixSpec date.offset := by
  unfold formatDateString
  rw [tz_code_eq_spec]

/-- C1: `matchFieldSigner` reports a match exactly when the extracted
field-signer string `s` equals the configured uid, or equals the hex
encoding of the uid's bytes, or is valid hex whose decoded bytes equal
the uid; no other form is accepted. -/
theorem c1_matchFieldSigner_spec (decodedFieldName : GoStr) (p : FieldPattern) (uid : GoStr) :
    (matchFieldSigner decodedFieldName p uid).1 = true ↔
      ∃ s, extractFieldSigner decodedFieldName p = some s ∧ uidMatchSpec s uid := by
  unfold matchFieldSigner uidMatchSpec
  rcases hex : extractFieldSigner decodedFieldName p with _ | s
  · simp
  · simp only [hex, Option.some_inj]
    constructor
    · intro h
      refine ⟨s, rfl, ?_⟩
      by_cases h1 : s = uid
      · exact Or.inl h1
      · by_cases h2 : hexEncodeGo uid = s
        · exact Or.inr (Or.inl h2.symm)
        · rcases hd : hexDecodeGo s with _ | bs
          · simp [h1, h2, hd] at h
          · by_cases h3 : bs = uid
            · exact Or.inr (Or.inr (congrArg some h3))
            · simp [h1, h2, hd, h3] at h
    · rintro ⟨t, rfl, hspec⟩
      by_cases h1 : s = uid
      · simp [h1]
      · by_cases h2 : hexEncodeGo uid = s
        · simp [h1, h2]
        · rcases hspec with h3 | h3 | h3
          · exact absurd h3 h1
          · exact absurd h3.symm h2
          · rw [if_neg h1, if_neg h2, h3]
            simp

/-- Sanity: the three accepted forms and a rejection, on concrete names. -/
theorem matchFieldSigner_sanity :
    matchFieldSigner (goStr "date_id_3_signer_abc") .dateId (goStr "abc") =
      (true, goStr "abc") ∧
    matchFieldSigner (goStr "date_id_1_signer_6162") .dateId (goStr "ab") =
      (true, goStr "6162") ∧
    matchFieldSigner (goStr "date_id_X_signer_ff") .dateId ([255] : GoStr) =
      (true, goStr "ff") ∧
    matchFieldSigner (goStr "initials_page_2_signer_abc") .dateId (goStr "abc") =
      (false, []) ∧
    matchFieldSigner (goStr "date_id_3_signer_abc") .dateId (goStr "abd") =
      (false, goStr "abc") := by
  refine ⟨by decide, by decide, by decide, by decide, by decide⟩

/-- C8: `decodeFieldName` decodes a `0xFE 0xFF` prefix as UTF-16 BE and a
`0xFF 0xFE` prefix as UTF-16 LE (pairwise on the bytes after the BOM),
returns every other string unchanged, and the fill loop matches the
pattern against this decoded name rather than the raw bytes. -/
theorem c8_decodeFieldName_spec :
    (∀ rest : GoStr,
      decodeFieldName (0xfe :: 0xff :: rest) = encodeUTF8 (utf16DecodeGo (pairsBE rest))) ∧
    (∀ rest : GoStr,
      decodeFieldName (0xff :: 0xfe :: rest) = encodeUTF8 (utf16DecodeGo (pairsLE rest))) ∧
    (∀ bs : GoStr, (∀ rest, bs ≠ 0xfe :: 0xff :: rest) → (∀ rest, bs ≠ 0xff :: 0xfe :: rest) →
      decodeFieldName bs = bs) ∧
    (∀ uid p value makeReadOnly scale ctx field, ¬ (PdfVal.key field "T").isNull = true →
      fillFieldStep uid p value makeReadOnly scale ctx field =
        if (matchFieldSigner (decodeFieldName (PdfVal.key field "T").rawString) p uid).1
        then updateFieldObject ctx field value makeReadOnly scale else ctx) := by
  refine ⟨fun rest => rfl, fun rest => rfl, ?_, ?_⟩
  · intro bs h1 h2
    unfold decodeFieldName
    split
    · exfalso; exact h1 _ rfl
    · exfalso; exact h2 _ rfl
    · rfl
  · intro uid p value makeReadOnly scale ctx field ht
    unfold fillFieldStep
    rw [if_neg (by simpa using ht)]

/-- Witness for C8: a concrete BE-encoded name decodes and matches, and
the hypotheses of the last conjunct are discharged on a concrete field. -/
theorem c8_decodeFieldName_witness :
    decodeFieldName [0xfe, 0xff, 0x00, 0x41] = goStr "A" ∧
    decodeFieldName [0xff, 0xfe, 0x41, 0x00] = goStr "A" ∧
    decodeFieldName (goStr "plain") = goStr "plain" ∧
    fillFieldStep (goStr "u") .dateId (goStr "v") true 0
        ⟨1, [], []⟩ (PdfVal.obj 0 [("T", .str (goStr "nope"))]) = ⟨1, [], []⟩ := by
  refine ⟨(c8_decodeFieldName_spec.1 [0x00, 0x41]).trans (by decide),
    (c8_decodeFieldName_spec.2.1 [0x41, 0x00]).trans (by decide),
    c8_decodeFieldName_spec.2.2.1 (goStr "plain")
      (fun rest h => by
        rw [show goStr "plain" = [112, 108, 97, 105, 110] from by decide] at h
        injection h with h1 _
        exact absurd h1 (by decide))
      (fun rest h => by
        rw [show goStr "plain" = [112, 108, 97, 105, 110] from by decide] at h
        injection h with h1 _
        exact absurd h1 (by decide)), ?_⟩
  rw [c8_decodeFieldName_spec.2.2.2 (goStr "u") .dateId (goStr "v") true 0
    ⟨1, [], []⟩ (PdfVal.obj 0 [("T", .str (goStr "nope"))]) (by decide)]
  rw [if_neg (by decide)]

/-- C9: `getHTTPClient` returns a client whose timeout equals
`options.HTTPTimeout` when it is non-zero and 10 seconds when it is zero,
including when a custom `HTTPClient` is supplied (whose own timeout is
overridden on the clone). -/
theorem c9_getHTTPClient_timeout (options : VerifyOptions) :
    (options.httpTimeout ≠ 0 →
      (getHTTPClient options).timeout = options.httpTimeout) ∧
    (options.httpTimeout = 0 →
      (getHTTPClient options).timeout = 10 * goSecond) ∧
    (∀ c, options.httpClient = some c →
      (getHTTPClient options).timeout =
        (if options.httpTimeout = 0 then 10 * goSecond else options.httpTimeout)) := by
  have key : (getHTTPClient options).timeout =
      (if options.httpTimeout = 0 then 10 * goSecond else options.httpTimeout) := by
    unfold getHTTPClient
    rcases options.httpClient with _ | c
    · rfl
    · rcases c with ⟨t, _ | rt⟩
      · rfl
      · rcases rt with t' | tag <;> rfl
  refine ⟨?_, ?_, ?_⟩
  · intro h; rw [key, if_neg h]
  · intro h; rw [key, if_pos h]
  · intro c _; exact key

/-- Witness for C9: a custom client with its own (ignored) timeout, under
both a zero and a non-zero configured timeout. -/
theorem c9_getHTTPClient_timeout_witness :
    (getHTTPClient ⟨true, some ⟨77, none⟩, 5, none⟩).timeout = 5 ∧
    (getHTTPClient ⟨true, some ⟨77, none⟩, 0, none⟩).timeout = 10 * goSecond :=
  ⟨(c9_getHTTPClient_timeout ⟨true, some ⟨77, none⟩, 5, none⟩).1 (by decide),
   (c9_getHTTPClient_timeout ⟨true, some ⟨77, none⟩, 0, none⟩).2.1 rfl⟩

/-- C2: with `EnableExternalRevocationCheck=false` both external checks
immediately return `Checked=true, Valid=false` with the warning
`"external revocation checking is disabled"` (and `IsRevoked=false` for
CRL) without contacting any server. -/
theorem c2_disabled_external_checks (cert : Certificate) (options : VerifyOptions)
    (oenv : OCSPEnv) (cenv : CRLEnv)
    (h : options.enableExternalRevocationCheck = false) :
    performExternalOCSPCheckWithFunc cert options oenv =
      ({ checked := true, valid := false, response := none,
         warning := "external revocation checking is disabled" }, []) ∧
    performExternalCRLCheck cert options cenv =
      ({ checked := true, valid := false, isRevoked := false, revocationTime := none,
         warning := "external revocation checking is disabled" }, []) := by
  constructor
  · unfold performExternalOCSPCheckWithFunc
    rw [h]
    rfl
  · unfold performExternalCRLCheck
    rw [h]
    rfl

/-- Witness for C2: a concrete certificate with an OCSP URL and a CRL
distribution point, and checks disabled. -/
theorem c2_disabled_external_checks_witness :
    performExternalOCSPCheckWithFunc ⟨["http://ocsp.example"], ["http://crl.example"], 7⟩
        ⟨false, none, 0, none⟩
        ⟨.ok [], fun _ => .error "unreachable", fun _ => .error "unreachable"⟩ =
      ({ checked := true, valid := false, response := none,
         warning := "external revocation checking is disabled" }, []) ∧
    performExternalCRLCheck ⟨["http://ocsp.example"], ["http://crl.example"], 7⟩
        ⟨false, none, 0, none⟩
        ⟨fun _ => .error "unreachable", fun _ => .error "unreachable"⟩ =
      ({ checked := true, valid := false, isRevoked := false, revocationTime := none,
         warning := "external revocation checking is disabled" }, []) :=
  c2_disabled_external_checks ⟨["http://ocsp.example"], ["http://crl.example"], 7⟩
    ⟨false, none, 0, none⟩
    ⟨.ok [], fun _ => .error "unreachable", fun _ => .error "unreachable"⟩
    ⟨fun _ => .error "unreachable", fun _ => .error "unreachable"⟩ rfl

/-- A string whose length is positive is not empty. -/
theorem ne_empty_of_len (s : String) (h : s.length ≠ 0) : s ≠ "" := by
  intro he; rw [he] at h; exact h rfl

/-- Invariant of the OCSP server loop: the result is always checked,
failures carry a non-empty warning, and success carries an empty one. -/
theorem ocspServerLoop_props (env : OCSPEnv) :
    ∀ (servers : List String) (lastErr : Option String),
      (∀ e, lastErr = some e → e ≠ "") →
      ((ocspServerLoop env lastErr servers).1.checked = true ∧
       ((ocspServerLoop env lastErr servers).1.valid = false →
         (ocspServerLoop env lastErr servers).1.warning ≠ "") ∧
       ((ocspServerLoop env lastErr servers).1.valid = true →
         (ocspServerLoop env lastErr servers).1.warning = "")) := by
  intro servers
  induction servers with
  | nil =>
    intro lastErr hlast
    refine ⟨rfl, ?_, ?_⟩
    · intro _
      rcases lastErr with _ | e
      · simp only [ocspServerLoop]
        decide
      · simpa only [ocspServerLoop] using hlast e rfl
    · intro hv
      exact absurd hv (by simp only [ocspServerLoop]; decide)
  | cons url rest ih =>
    intro lastErr hlast
    rcases hp : env.post url with e | resp
    · have hmsg : ("failed to contact OCSP server " ++ url ++ ": " ++ e) ≠ "" := by
        apply ne_empty_of_len
        simp only [String.length_append]
        have : 0 < ("failed to contact OCSP server ").length := by decide
        omega
      have := ih (some ("failed to contact OCSP server " ++ url ++ ": " ++ e))
        (fun e' he' => by cases he'; exact hmsg)
      simpa only [ocspServerLoop, hp] using this
    · by_cases hst : resp.status ≠ 200
      · have hmsg : ("OCSP server " ++ url ++ " returned status " ++ toString resp.status) ≠ "" := by
          apply ne_empty_of_len
          simp only [String.length_append]
          have : 0 < ("OCSP server ").length := by decide
          omega
        have := ih (some ("OCSP server " ++ url ++ " returned status " ++ toString resp.status))
          (fun e' he' => by cases he'; exact hmsg)
        simpa only [ocspServerLoop, hp, if_pos hst] using this
      · rcases hb : resp.bodyRead with e | body
        · have hmsg : ("failed to read OCSP response from " ++ url ++ ": " ++ e) ≠ "" := by
            apply ne_empty_of_len
            simp only [String.length_append]
            have : 0 < ("failed to read OCSP response from ").length := by decide
            omega
          have := ih (some ("failed to read OCSP response from " ++ url ++ ": " ++ e))
            (fun e' he' => by cases he'; exact hmsg)
          simpa only [ocspServerLoop, hp, if_neg hst, hb] using this
        · rcases hpr : env.parse body with e | ocspResp
          · have hmsg : ("failed to parse OCSP response from " ++ url ++ ": " ++ e) ≠ "" := by
              apply ne_empty_of_len
              simp only [String.length_append]
              have : 0 < ("failed to parse OCSP response from ").length := by decide
              omega
            have := ih (some ("failed to parse OCSP response from " ++ url ++ ": " ++ e))
              (fun e' he' => by cases he'; exact hmsg)
            simpa only [ocspServerLoop, hp, if_neg hst, hb, hpr] using this
          · simp [ocspServerLoop, hp, if_neg hst, hb, hpr]

/-- Invariant of the CRL distribution-point loop, as for OCSP. -/
theorem crlServerLoop_props (env : CRLEnv) (serial : Int) :
    ∀ (points : List String) (lastErr : Option String),
      (∀ e, lastErr = some e → e ≠ "") →
      ((crlServerLoop env serial lastErr points).1.checked = true ∧
       ((crlServerLoop env serial lastErr points).1.valid = false →
         (crlServerLoop env serial lastErr points).1.warning ≠ "") ∧
       ((crlServerLoop env serial lastErr points).1.valid = true →
         (crlServerLoop env serial lastErr points).1.warning = "")) := by
  intro points
  induction points with
  | nil =>
    intro lastErr hlast
    refine ⟨rfl, ?_, ?_⟩
    · intro _
      rcases lastErr with _ | e
      · simp only [crlServerLoop]
        decide
      · simpa only [crlServerLoop] using hlast e rfl
    · intro hv
      exact absurd hv (by simp only [crlServerLoop]; decide)
  | cons url rest ih =>
    intro lastErr hlast
    rcases hp : env.get url with e | resp
    · have hmsg : ("failed to download CRL from " ++ url ++ ": " ++ e) ≠ "" := by
        apply ne_empty_of_len
        simp only [String.length_append]
        have : 0 < ("failed to download CRL from ").length := by decide
        omega
      have := ih (some ("failed to download CRL from " ++ url ++ ": " ++ e))
        (fun e' he' => by cases he'; exact hmsg)
      simpa only [crlServerLoop, hp] using this
    · by_cases hst : resp.status ≠ 200
      · have hmsg : ("CRL server " ++ url ++ " returned status " ++ toString resp.status) ≠ "" := by
          apply ne_empty_of_len
          simp only [String.length_append]
          have : 0 < ("CRL server ").length := by decide
          omega
        have := ih (some ("CRL server " ++ url ++ " returned status " ++ toString resp.status))
          (fun e' he' => by cases he'; exact hmsg)
        simpa only [crlServerLoop, hp, if_pos hst] using this
      · rcases hb : resp.bodyRead with e | body
        · have hmsg : ("failed to read CRL from " ++ url ++ ": " ++ e) ≠ "" := by
            apply ne_empty_of_len
            simp only [String.length_append]
            have : 0 < ("failed to read CRL from ").length := by decide
            omega
          have := ih (some ("failed to read CRL from " ++ url ++ ": " ++ e))
            (fun e' he' => by cases he'; exact hmsg)
          simpa only [crlServerLoop, hp, if_neg hst, hb] using this
        · rcases hpr : env.parse body with e | crl
          · have hmsg : ("failed to parse CRL from " ++ url ++ ": " ++ e) ≠ "" := by
              apply ne_empty_of_len
              simp only [String.length_append]
              have : 0 < ("failed to parse CRL from ").length := by decide
              omega
            have := ih (some ("failed to parse CRL from " ++ url ++ ": " ++ e))
              (fun e' he' => by cases he'; exact hmsg)
            simpa only [crlServerLoop, hp, if_neg hst, hb, hpr] using this
          · rcases hf : crl.revoked.find? (fun rc => rc.serialNumber == serial) with _ | rc <;>
              simp [crlServerLoop, hp, if_neg hst, hb, hpr, hf]

/-- C3: both external checks always produce a result record: every
failure path yields `Valid=false` with the failure description in the
result's `Warning` field only, success yields an empty warning, and the
OCSP and CRL categories are independent: the OCSP result depends only on
the certificate's OCSP URLs (and its own environment), the CRL result
only on the distribution points and serial number. -/
theorem c3_external_check_totality (cert cert' : Certificate) (options : VerifyOptions)
    (oenv : OCSPEnv) (cenv : CRLEnv) :
    ((performExternalOCSPCheckWithFunc cert options oenv).1.checked = true ∧
     ((performExternalOCSPCheckWithFunc cert options oenv).1.valid = false →
       (performExternalOCSPCheckWithFunc cert options oenv).1.warning ≠ "") ∧
     ((performExternalOCSPCheckWithFunc cert options oenv).1.valid = true →
       (performExternalOCSPCheckWithFunc cert options oenv).1.warning = "")) ∧
    ((performExternalCRLCheck cert options cenv).1.checked = true ∧
     ((performExternalCRLCheck cert options cenv).1.valid = false →
       (performExternalCRLCheck cert options cenv).1.warning ≠ "") ∧
     ((performExternalCRLCheck cert options cenv).1.valid = true →
       (performExternalCRLCheck cert options cenv).1.warning = "")) ∧
    (cert.ocspServer = cert'.ocspServer →
      performExternalOCSPCheckWithFunc cert options oenv =
        performExternalOCSPCheckWithFunc cert' options oenv) ∧
    (cert.crlDistributionPoints = cert'.crlDistributionPoints →
      cert.serialNumber = cert'.serialNumber →
      performExternalCRLCheck cert options cenv =
        performExternalCRLCheck cert' options cenv) := by
  refine ⟨?_, ?_, ?_, ?_⟩
  · unfold performExternalOCSPCheckWithFunc
    by_cases he : options.enableExternalRevocationCheck
    · rw [if_neg (by simp [he])]
      by_cases hs : cert.ocspServer.isEmpty
      · rw [if_pos hs]
        exact ⟨rfl, fun _ => by decide, fun hv => nomatch hv⟩
      · rw [if_neg hs]
        rcases hc : oenv.createReq with e | req
        · refine ⟨rfl, fun _ => ?_, fun hv => nomatch hv⟩
          apply ne_empty_of_len
          simp only [String.length_append]
          have : 0 < ("failed to create OCSP request: ").length := by decide
          omega
        · exact ocspServerLoop_props oenv cert.ocspServer none (fun e he' => nomatch he')
    · rw [if_pos (by simp [he])]
      exact ⟨rfl, fun _ => by decide, fun hv => nomatch hv⟩
  · unfold performExternalCRLCheck
    by_cases he : options.enableExternalRevocationCheck
    · rw [if_neg (by simp [he])]
      by_cases hs : cert.crlDistributionPoints.isEmpty
      · rw [if_pos hs]
        exact ⟨rfl, fun _ => by decide, fun hv => nomatch hv⟩
      · rw [if_neg hs]
        exact crlServerLoop_props cenv cert.serialNumber cert.crlDistributionPoints none
          (fun e he' => nomatch he')
    · rw [if_pos (by simp [he])]
      exact ⟨rfl, fun _ => by decide, fun hv => nomatch hv⟩
  · intro h
    unfold performExternalOCSPCheckWithFunc
    rw [h]
  · intro h1 h2
    unfold performExternalCRLCheck
    rw [h1, h2]

/-- Witness for C3: a failing POST yields a warning-carrying invalid
result, and changing only CRL-relevant certificate fields leaves the
OCSP result unchanged (and conversely). -/
theorem c3_external_check_totality_witness :
    (performExternalOCSPCheckWithFunc ⟨["u"], [], 1⟩ ⟨true, none, 0, none⟩
        ⟨.ok [], fun _ => .error "boom", fun _ => .error "x"⟩).1.warning ≠ "" ∧
    performExternalOCSPCheckWithFunc ⟨["u"], [], 1⟩ ⟨true, none, 0, none⟩
        ⟨.ok [], fun _ => .error "boom", fun _ => .error "x"⟩ =
      performExternalOCSPCheckWithFunc ⟨["u"], ["crl"], 2⟩ ⟨true, none, 0, none⟩
        ⟨.ok [], fun _ => .error "boom", fun _ => .error "x"⟩ ∧
    performExternalCRLCheck ⟨["u"], ["crl"], 2⟩ ⟨true, none, 0, none⟩
        ⟨fun _ => .error "down", fun _ => .error "x"⟩ =
      performExternalCRLCheck ⟨["v"], ["crl"], 2⟩ ⟨true, none, 0, none⟩
        ⟨fun _ => .error "down", fun _ => .error "x"⟩ :=
  ⟨(c3_external_check_totality ⟨["u"], [], 1⟩ ⟨["u"], [], 1⟩ ⟨true, none, 0, none⟩
      ⟨.ok [], fun _ => .error "boom", fun _ => .error "x"⟩
      ⟨fun _ => .error "down", fun _ => .error "x"⟩).1.2.1 (by decide),
   (c3_external_check_totality ⟨["u"], [], 1⟩ ⟨["u"], ["crl"], 2⟩ ⟨true, none, 0, none⟩
      ⟨.ok [], fun _ => .error "boom", fun _ => .error "x"⟩
      ⟨fun _ => .error "down", fun _ => .error "x"⟩).2.2.1 rfl,
   (c3_external_check_totality ⟨["u"], ["crl"], 2⟩ ⟨["v"], ["crl"], 2⟩ ⟨true, none, 0, none⟩
      ⟨.ok [], fun _ => .error "boom", fun _ => .error "x"⟩
      ⟨fun _ => .error "down", fun _ => .error "x"⟩).2.2.2 rfl rfl⟩
/-- C10: when the signer UID is empty, the computed fill value is empty
(empty initials for initials fields; zero signature date for date
fields), or the document has no AcroForm or no Fields array, the fillers
return without touching the signing context: no object is added and no
object is updated. -/
theorem c10_fill_noop_frame (env : FillEnv) (ctx : SignContext) :
    (env.signerUID = [] ∨ goStr (computeInitials env.signerName) = [] ∨
        env.acroForm.isNull = true ∨ (env.acroForm.key "Fields").isNull = true →
      fillInitialsFields env ctx = ctx) ∧
    (env.signerUID = [] ∨ env.sigDate.isZero = true ∨
        env.acroForm.isNull = true ∨ (env.acroForm.key "Fields").isNull = true →
      fillDateFields env ctx = ctx) := by
  constructor
  · intro h
    unfold fillInitialsFields
    by_cases hn : env.signerName = ""
    · rw [if_pos hn]
    · rw [if_neg hn]
      unfold fillFormFields
      split_ifs with h1 h2 h3 h4
      · rfl
      · rfl
      · rfl
      · rfl
      · rcases h with h | h | h | h
        · exact absurd h h1
        · exact absurd h h2
        · exact absurd h h3
        · exact absurd h h4
  · intro h
    unfold fillDateFields
    by_cases hz : env.sigDate.isZero = true
    · rw [if_pos hz]
    · rw [if_neg hz]
      unfold fillFormFields
      split_ifs with h1 h2 h3 <;> try rfl
      all_goals try (simp only [ite_self])
      rcases h with h | h | h | h
      · exact absurd h h1
      · exact absurd h hz
      · exact absurd h h2
      · exact absurd h h3

/-- Witness for C10: an empty UID and a null AcroForm both leave a
concrete context untouched. -/
theorem c10_fill_noop_frame_witness :
    fillInitialsFields ⟨[], "", "", "John Doe", ⟨2024, 1, 15, 14, 30, 0, 0⟩, .null⟩
      ⟨1, [], []⟩ = ⟨1, [], []⟩ ∧
    fillDateFields ⟨[], "", "", "John Doe", ⟨2024, 1, 15, 14, 30, 0, 0⟩, .null⟩
      ⟨1, [], []⟩ = ⟨1, [], []⟩ ∧
    fillInitialsFields ⟨goStr "u", "", "", "John Doe", ⟨2024, 1, 15, 14, 30, 0, 0⟩, .null⟩
      ⟨1, [], []⟩ = ⟨1, [], []⟩ ∧
    fillDateFields ⟨goStr "u", "", "", "John Doe", ⟨2024, 1, 15, 14, 30, 0, 0⟩, .null⟩
      ⟨1, [], []⟩ = ⟨1, [], []⟩ :=
  ⟨(c10_fill_noop_frame ⟨[], "", "", "John Doe", ⟨2024, 1, 15, 14, 30, 0, 0⟩, .null⟩
      ⟨1, [], []⟩).1 (Or.inl rfl),
   (c10_fill_noop_frame ⟨[], "", "", "John Doe", ⟨2024, 1, 15, 14, 30, 0, 0⟩, .null⟩
      ⟨1, [], []⟩).2 (Or.inl rfl),
   (c10_fill_noop_frame ⟨goStr "u", "", "", "John Doe", ⟨2024, 1, 15, 14, 30, 0, 0⟩, .null⟩
      ⟨1, [], []⟩).1 (Or.inr (Or.inr (Or.inl rfl))),
   (c10_fill_noop_frame ⟨goStr "u", "", "", "John Doe", ⟨2024, 1, 15, 14, 30, 0, 0⟩, .null⟩
      ⟨1, [], []⟩).2 (Or.inr (Or.inr (Or.inl rfl)))⟩

/-- The DA-extracted font size is never negative. -/
theorem daFontSize_nonneg (da : GoStr) : 0 ≤ daFontSize da := by
  unfold daFontSize
  rcases h1 : findNumTf da with _ | m
  · norm_num
  · change (0 : ℚ) ≤ (match parseDecQ m with | some x => x | none => (10 : ℚ))
    rcases hp : parseDecQ m with _ | q
    · norm_num
    · show (0 : ℚ) ≤ q
      unfold parseDecQ at hp
      rcases hpp : parseDecParts m with _ | p <;> rw [hpp] at hp
      · cases hp
      · have hq : q = (p.1 : ℚ) + (p.2.1 : ℚ) / ((10 : ℚ) ^ p.2.2) :=
          (Option.some.inj hp).symm
        rw [hq]
        positivity

/-- The `Tf` operator of a successfully built appearance stream carries
exactly the computed font size. -/
theorem tf_in_ops (text : GoStr) (rect : Rect4) (da : GoStr) (scale : ℚ)
    (x : AppearanceXObject) (h : createTextFieldAppearance text rect da scale = .ok x) :
    PdfOp.tfOp "F1" (appearanceFontSize da (rect.y1 - rect.y0) scale) ∈ x.ops := by
  unfold createTextFieldAppearance at h
  by_cases hd : rect.x1 - rect.x0 ≤ 0 || rect.y1 - rect.y0 ≤ 0
  · rw [if_pos hd] at h; cases h
  · rw [if_neg hd] at h
    have hx := Except.ok.inj h
    rw [← hx]
    simp

/-- Counterexample to C7 as stated: with a `/DA` size of 10 and a field
of height 10, the date-field appearance uses font size 7 (the
`0.7 × height` clamp), not the resolved size multiplied by 1.2. -/
theorem c7_font_scale_counterexample :
    daFontSize (goStr "/F1 10 Tf 0 0 0 rg") = 10 ∧
    appearanceFontSize (goStr "/F1 10 Tf 0 0 0 rg") 10 dateFieldFontScale = 7 ∧
    ¬ appearanceFontSize (goStr "/F1 10 Tf 0 0 0 rg") 10 dateFieldFontScale =
        dateFieldFontScale * daFontSize (goStr "/F1 10 Tf 0 0 0 rg") := by
  have hda : daFontSize (goStr "/F1 10 Tf 0 0 0 rg") = 10 := by
    rw [daFontSize]
    simp only [show findNumTf (goStr "/F1 10 Tf 0 0 0 rg") = some [49, 48] from by decide]
    rw [show parseDecQ [49, 48] = some 10 from by
      rw [parseDecQ, show parseDecParts [49, 48] = some (10, 0, 0) from by decide]
      norm_num]
  have happ : appearanceFontSize (goStr "/F1 10 Tf 0 0 0 rg") 10 dateFieldFontScale = 7 := by
    rw [appearanceFontSize, hda]
    norm_num [dateFieldFontScale]
  refine ⟨hda, happ, ?_⟩
  rw [happ, hda]
  norm_num [dateFieldFontScale]

/-- C7 (amended): for a field of positive height, a date-field appearance
uses font size `min (1.2 × resolved /DA size) (0.7 × height)`, an
initials-field appearance (no scaling) uses
`min (resolved size) (0.7 × height)`, and the appearance stream's `Tf`
operator carries exactly this size. -/
theorem c7_font_scale_amended (da : GoStr) (h : ℚ) (hpos : 0 < h) :
    appearanceFontSize da h dateFieldFontScale =
      min (dateFieldFontScale * daFontSize da) (h * (7 / 10)) ∧
    appearanceFontSize da h 0 = min (daFontSize da) (h * (7 / 10)) ∧
    (∀ text rect da2 scale x, createTextFieldAppearance text rect da2 scale = .ok x →
      PdfOp.tfOp "F1" (appearanceFontSize da2 (rect.y1 - rect.y0) scale) ∈ x.ops) := by
  have hs0 : 0 ≤ daFontSize da := daFontSize_nonneg da
  refine ⟨?_, ?_, fun text rect da2 scale x hx => tf_in_ops text rect da2 scale x hx⟩
  · unfold appearanceFontSize dateFieldFontScale
    rw [if_pos (by norm_num : (1.2 : ℚ) > 0)]
    by_cases hA : daFontSize da > h * (7 / 10)
    · rw [if_pos hA]
      rw [if_pos (by nlinarith : h * (7 / 10) * 1.2 > h * (7 / 10))]
      rw [min_eq_right (by nlinarith)]
    · rw [if_neg hA]
      push_neg at hA
      by_cases hB : daFontSize da * 1.2 > h * (7 / 10)
      · rw [if_pos hB, min_eq_right (by nlinarith)]
      · rw [if_neg hB, min_eq_left (by nlinarith)]
        ring
  · unfold appearanceFontSize
    rw [if_neg (by norm_num : ¬ ((0 : ℚ) > 0))]
    by_cases hA : daFontSize da > h * (7 / 10)
    · rw [if_pos hA, min_eq_right (by nlinarith)]
    · rw [if_neg hA, min_eq_left (by push_neg at hA; exact hA)]

/-- Witness for C7 (amended): an unclamped date field scales 10 to 12
while the initials field keeps 10. -/
theorem c7_font_scale_amended_witness :
    appearanceFontSize (goStr "") 100 dateFieldFontScale = 12 ∧
    appearanceFontSize (goStr "") 100 0 = 10 := by
  have h := c7_font_scale_amended (goStr "") 100 (by norm_num)
  have hda : daFontSize (goStr "") = 10 := rfl
  constructor
  · rw [h.1, hda]
    norm_num [dateFieldFontScale]
  · rw [h.2.1, hda]
    norm_num
/-- A positive-size rectangle always yields a successfully built
appearance with the fixed operator sequence. -/
theorem create_ok (text : GoStr) (rect : Rect4) (da : GoStr) (scale : ℚ)
    (hw : 0 < rect.x1 - rect.x0) (hh : 0 < rect.y1 - rect.y0) :
    ∃ tx ty, createTextFieldAppearance text rect da scale =
      .ok ⟨rect.x1 - rect.x0, rect.y1 - rect.y0,
        [.qSave, .rgOp 1 1 1, .reOp 0 0 (rect.x1 - rect.x0) (rect.y1 - rect.y0),
         .fFill, .btOp,
         .tfOp "F1" (appearanceFontSize da (rect.y1 - rect.y0) scale),
         .rgOp 0 0 0, .tdOp tx ty, .tjOp text, .etOp, .qRestore]⟩ := by
  refine ⟨(if ((rect.x1 - rect.x0) -
      (text.length : ℚ) * appearanceFontSize da (rect.y1 - rect.y0) scale * (6 / 10)) / 2 < 1
      then 1
      else ((rect.x1 - rect.x0) -
        (text.length : ℚ) * appearanceFontSize da (rect.y1 - rect.y0) scale * (6 / 10)) / 2),
    ((rect.y1 - rect.y0) - appearanceFontSize da (rect.y1 - rect.y0) scale) / 2 +
      appearanceFontSize da (rect.y1 - rect.y0) scale * (2 / 10), ?_⟩
  have hcond : ¬ ((decide (rect.x1 - rect.x0 ≤ 0) || decide (rect.y1 - rect.y0 ≤ 0)) = true) := by
    simp only [Bool.or_eq_true, decide_eq_true_eq, not_or, not_le]
    exact ⟨hw, hh⟩
  unfold createTextFieldAppearance
  rw [if_neg hcond]

/-- `addObject` results are preserved through the rest of the key loop. -/
theorem buildLoop_added_mono (v : PdfVal) (rect : Rect4) (value : GoStr) (scale : ℚ) :
    ∀ (ks : List String) (ctx : SignContext) (x : Nat × AppearanceXObject),
      x ∈ ctx.addedObjects →
      x ∈ ((buildLoop v rect value scale ks ctx).2.1).addedObjects := by
  intro ks
  induction ks with
  | nil => intro ctx x hx; exact hx
  | cons k ks ih =>
    intro ctx x hx
    unfold buildLoop
    by_cases h1 : k = "V"
    · rw [if_pos h1]; exact ih ctx x hx
    · rw [if_neg h1]
      by_cases h2 : k = "Ff"
      · rw [if_pos h2]; exact ih ctx x hx
      · rw [if_neg h2]
        by_cases h3 : k = "AP"
        · rw [if_pos h3]
          rcases hc : createTextFieldAppearance value rect
              (normalizeDA (v.key "DA").rawString) scale with e | ap
          · exact ih ctx x hx
          · have hx1 : x ∈ ((ctx.addObject ap).2).addedObjects := by
              unfold SignContext.addObject
              simp only [List.mem_append]
              exact Or.inl hx
            exact ih (ctx.addObject ap).2 x hx1
        · rw [if_neg h3]
          by_cases h4 : k = "T"
          · rw [if_pos h4]; exact ih ctx x hx
          · rw [if_neg h4]
            by_cases h5 : k = "DA"
            · rw [if_pos h5]; exact ih ctx x hx
            · rw [if_neg h5]; exact ih ctx x hx

/-- `entryProps` is stable under prepending an entry and extending the
added-objects list. -/
theorem entryProps_mono (v : PdfVal) (rect : Rect4) (value : GoStr) (scale : ℚ)
    (k : String) (es es2 : List (String × EmittedVal))
    (added added2 : List (Nat × AppearanceXObject))
    (hes : ∀ e, e ∈ es → e ∈ es2) (hadd : ∀ a, a ∈ added → a ∈ added2)
    (h : entryProps v rect value scale k es added) :
    entryProps v rect value scale k es2 added2 := by
  obtain ⟨p1, p2, p3, p4⟩ := h
  refine ⟨fun h => hes _ (p1 h), fun h => hes _ (p2 h), fun h => hes _ (p3 h),
    fun h hw hh => ?_⟩
  obtain ⟨apId, xobj, tx, ty, m1, m2, e1, e2, e3⟩ := p4 h hw hh
  exact ⟨apId, xobj, tx, ty, hes _ m1, hadd _ m2, e1, e2, e3⟩

theorem buildLoop_entries (v : PdfVal) (rect : Rect4) (value : GoStr) (scale : ℚ) :
    ∀ (ks : List String) (ctx : SignContext) (k : String), k ∈ ks →
      entryProps v rect value scale k (buildLoop v rect value scale ks ctx).1
        ((buildLoop v rect value scale ks ctx).2.1).addedObjects := by
  intro ks
  induction ks with
  | nil => intro ctx k hk; cases hk
  | cons k0 ks ih =>
    intro ctx k hk
    rcases List.mem_cons.mp hk with rfl | htail
    · -- k is the head key
      by_cases h1 : k = "V"
      · -- /V is skipped, and every conjunct of `entryProps` is vacuous for it
        subst h1
        unfold buildLoop
        rw [if_pos rfl]
        exact ⟨fun hns => absurd (by simp) hns, fun h => absurd h (by decide),
          fun h => absurd h (by decide), fun h => absurd h (by decide)⟩
      · by_cases h2 : k = "Ff"
        · subst h2
          unfold buildLoop
          rw [if_neg h1, if_pos rfl]
          exact ⟨fun hns => absurd (by simp) hns, fun h => absurd h (by decide),
            fun h => absurd h (by decide), fun h => absurd h (by decide)⟩
        · by_cases h3 : k = "AP"
          · subst h3
            unfold buildLoop
            rw [if_neg h1, if_neg h2, if_pos rfl]
            refine ⟨fun hns => absurd (by simp) hns, fun h => absurd h (by decide),
              fun h => absurd h (by decide), fun _ hw hh => ?_⟩
            obtain ⟨tx, ty, hok⟩ :=
              create_ok value rect (normalizeDA (v.key "DA").rawString) scale hw hh
            simp only [hok]
            refine ⟨ctx.nextObjId,
              ⟨rect.x1 - rect.x0, rect.y1 - rect.y0,
               [.qSave, .rgOp 1 1 1,
                .reOp 0 0 (rect.x1 - rect.x0) (rect.y1 - rect.y0), .fFill, .btOp,
                .tfOp "F1" (appearanceFontSize (normalizeDA (v.key "DA").rawString)
                  (rect.y1 - rect.y0) scale),
                .rgOp 0 0 0, .tdOp tx ty, .tjOp value, .etOp, .qRestore]⟩,
              tx, ty, List.mem_cons_self _ _, ?_, rfl, rfl, rfl⟩
            apply buildLoop_added_mono
            unfold SignContext.addObject
            simp
          · by_cases h4 : k = "T"
            · subst h4
              unfold buildLoop
              rw [if_neg h1, if_neg h2, if_neg h3, if_pos rfl]
              exact ⟨fun hns => absurd (by simp) hns, fun _ => List.mem_cons_self _ _,
                fun h => absurd h (by decide), fun h => absurd h (by decide)⟩
            · by_cases h5 : k = "DA"
              · subst h5
                unfold buildLoop
                rw [if_neg h1, if_neg h2, if_neg h3, if_neg h4, if_pos rfl]
                exact ⟨fun hns => absurd (by simp) hns, fun h => absurd h (by decide),
                  fun _ => List.mem_cons_self _ _, fun h => absurd h (by decide)⟩
              · unfold buildLoop
                rw [if_neg h1, if_neg h2, if_neg h3, if_neg h4, if_neg h5]
                exact ⟨fun _ => List.mem_cons_self _ _, fun h => absurd h h4,
                  fun h => absurd h h5, fun h => absurd h h3⟩
    · -- k is further down
      unfold buildLoop
      by_cases h1 : k0 = "V"
      · rw [if_pos h1]; exact ih ctx k htail
      · rw [if_neg h1]
        by_cases h2 : k0 = "Ff"
        · rw [if_pos h2]; exact ih ctx k htail
        · rw [if_neg h2]
          by_cases h3 : k0 = "AP"
          · rw [if_pos h3]
            rcases hc : createTextFieldAppearance value rect
                (normalizeDA (v.key "DA").rawString) scale with e | ap
            · exact ih ctx k htail
            · exact entryProps_mono v rect value scale k _ _ _ _
                (fun e he => List.mem_cons_of_mem _ he) (fun a ha => ha)
                (ih (ctx.addObject ap).2 k htail)
          · rw [if_neg h3]
            by_cases h4 : k0 = "T"
            · rw [if_pos h4]
              exact entryProps_mono v rect value scale k _ _ _ _
                (fun e he => List.mem_cons_of_mem _ he) (fun a ha => ha)
                (ih ctx k htail)
            · rw [if_neg h4]
              by_cases h5 : k0 = "DA"
              · rw [if_pos h5]
                exact entryProps_mono v rect value scale k _ _ _ _
                  (fun e he => List.mem_cons_of_mem _ he) (fun a ha => ha)
                  (ih ctx k htail)
              · rw [if_neg h5]
                exact entryProps_mono v rect value scale k _ _ _ _
                  (fun e he => List.mem_cons_of_mem _ he) (fun a ha => ha)
                  (ih ctx k htail)

/-- A key absent from a dictionary's key list looks up to `null`. -/
theorem key_of_not_mem (v : PdfVal) (k : String) (h : k ∉ v.keysOf) :
    v.key k = .null := by
  rcases v with _ | n | q | bs | s | xs | ⟨id, entries⟩ <;> try rfl
  have hf : List.find? (fun p => p.1 == k) entries = none := by
    rw [List.find?_eq_none]
    intro p hp
    simp only [beq_iff_eq]
    intro hpk
    exact h (by
      unfold PdfVal.keysOf
      exact List.mem_map.mpr ⟨p, hp, hpk⟩)
  change (match List.find? (fun p => p.1 == k) entries with
    | some p => p.2
    | none => PdfVal.null) = PdfVal.null
  rw [hf]

/-- The remembered `/Ff` value of the key loop. -/
theorem buildLoop_existingFf (v : PdfVal) (rect : Rect4) (value : GoStr) (scale : ℚ) :
    ∀ (ks : List String) (ctx : SignContext),
      (buildLoop v rect value scale ks ctx).2.2.1 =
        (if "Ff" ∈ ks then (v.key "Ff").int64 else 0) := by
  intro ks
  induction ks with
  | nil => intro ctx; rw [if_neg (by simp)]; rfl
  | cons k0 ks ih =>
    intro ctx
    unfold buildLoop
    by_cases h2 : k0 = "Ff"
    · subst h2
      rw [if_neg (by decide : ¬ ("Ff" : String) = "V"), if_pos rfl,
        if_pos (List.mem_cons_self _ _)]
    · have hmem : ("Ff" ∈ k0 :: ks) ↔ ("Ff" ∈ ks) := by
        simp only [List.mem_cons]
        constructor
        · rintro (h | h)
          · exact absurd h.symm h2
          · exact h
        · exact Or.inr
      rw [if_congr hmem rfl rfl]
      by_cases h1 : k0 = "V"
      · rw [if_pos h1]; exact ih ctx
      · rw [if_neg h1, if_neg h2]
        by_cases h3 : k0 = "AP"
        · rw [if_pos h3]
          rcases hc : createTextFieldAppearance value rect
              (normalizeDA (v.key "DA").rawString) scale with e | ap
          · exact ih ctx
          · exact ih (ctx.addObject ap).2
        · rw [if_neg h3]
          by_cases h4 : k0 = "T"
          · rw [if_pos h4]; exact ih ctx
          · rw [if_neg h4]
            by_cases h5 : k0 = "DA"
            · rw [if_pos h5]; exact ih ctx
            · rw [if_neg h5]; exact ih ctx

/-- The key loop never records object updates. -/
theorem buildLoop_updated_eq (v : PdfVal) (rect : Rect4) (value : GoStr) (scale : ℚ) :
    ∀ (ks : List String) (ctx : SignContext),
      ((buildLoop v rect value scale ks ctx).2.1).updatedObjects = ctx.updatedObjects := by
  intro ks
  induction ks with
  | nil => intro ctx; rfl
  | cons k0 ks ih =>
    intro ctx
    unfold buildLoop
    by_cases h1 : k0 = "V"
    · rw [if_pos h1]; exact ih ctx
    · rw [if_neg h1]
      by_cases h2 : k0 = "Ff"
      · rw [if_pos h2]; exact ih ctx
      · rw [if_neg h2]
        by_cases h3 : k0 = "AP"
        · rw [if_pos h3]
          rcases hc : createTextFieldAppearance value rect
              (normalizeDA (v.key "DA").rawString) scale with e | ap
          · exact ih ctx
          · exact ih (ctx.addObject ap).2
        · rw [if_neg h3]
          by_cases h4 : k0 = "T"
          · rw [if_pos h4]; exact ih ctx
          · rw [if_neg h4]
            by_cases h5 : k0 = "DA"
            · rw [if_pos h5]; exact ih ctx
            · rw [if_neg h5]; exact ih ctx

/-- `dictSpec` is stable under extending the added-objects list. -/
theorem dictSpec_added_mono (v : PdfVal) (rect : Rect4) (value : GoStr)
    (ro : Bool) (scale : ℚ) (d : List (String × EmittedVal))
    (added added2 : List (Nat × AppearanceXObject))
    (hadd : ∀ a, a ∈ added → a ∈ added2)
    (h : dictSpec v rect value ro scale d added) :
    dictSpec v rect value ro scale d added2 := by
  obtain ⟨p1, p2, p3, p4, p5, p6, p7⟩ := h
  refine ⟨p1, p2, p3, p4, p5, p6, fun h hw hh => ?_⟩
  obtain ⟨apId, xobj, tx, ty, m1, m2, e1, e2, e3⟩ := p7 h hw hh
  exact ⟨apId, xobj, tx, ty, m1, hadd _ m2, e1, e2, e3⟩

/-- The replacement dictionary built by `buildUpdatedDict` satisfies the
amended C6 description. -/
theorem buildUpdatedDict_spec (ctx : SignContext) (v : PdfVal) (rect : Rect4)
    (value : GoStr) (ro : Bool) (scale : ℚ) :
    dictSpec v rect value ro scale (buildUpdatedDict ctx v rect value ro scale).1
      ((buildUpdatedDict ctx v rect value ro scale).2).addedObjects := by
  unfold buildUpdatedDict
  refine ⟨?_, ?_, ?_, ?_, ?_, ?_, ?_⟩
  · simp
  · simp
  · intro hro
    have hff : (buildLoop v rect value scale v.keysOf ctx).2.2.1 =
        (v.key "Ff").int64 := by
      rw [buildLoop_existingFf]
      by_cases hm : "Ff" ∈ v.keysOf
      · rw [if_pos hm]
      · rw [if_neg hm, key_of_not_mem v "Ff" hm]
        rfl
    simp only [hro, if_true, hff]
    simp
  · intro k hkmem hkns
    have := (buildLoop_entries v rect value scale v.keysOf ctx k hkmem).1 hkns
    simp only [List.mem_append]
    exact Or.inl (Or.inl this)
  · intro hkmem
    have := (buildLoop_entries v rect value scale v.keysOf ctx "T" hkmem).2.1 rfl
    simp only [List.mem_append]
    exact Or.inl (Or.inl this)
  · intro hkmem
    have := (buildLoop_entries v rect value scale v.keysOf ctx "DA" hkmem).2.2.1 rfl
    simp only [List.mem_append]
    exact Or.inl (Or.inl this)
  · intro hkmem hw hh
    obtain ⟨apId, xobj, tx, ty, m1, m2, e1, e2, e3⟩ :=
      (buildLoop_entries v rect value scale v.keysOf ctx "AP" hkmem).2.2.2 rfl hw hh
    refine ⟨apId, xobj, tx, ty, ?_, m2, e1, e2, e3⟩
    simp only [List.mem_append]
    exact Or.inl (Or.inl m1)

/-- `updateObject` and `processKids` only append to the context. -/
theorem processKids_mono (value : GoStr) (ro : Bool) (scale : ℚ) :
    ∀ (kids : List PdfVal) (ctx : SignContext),
      (∀ u, u ∈ ctx.updatedObjects →
        u ∈ (processKids value ro scale kids ctx).updatedObjects) ∧
      (∀ a, a ∈ ctx.addedObjects →
        a ∈ (processKids value ro scale kids ctx).addedObjects) := by
  intro kids
  induction kids with
  | nil => intro ctx; exact ⟨fun u hu => hu, fun a ha => ha⟩
  | cons kid rest ih =>
    intro ctx
    unfold processKids
    by_cases hp : kid.ptrId = 0
    · rw [if_pos hp]; exact ih ctx
    · rw [if_neg hp]
      set ctx2 := ((buildUpdatedDict ctx kid (kidRect kid) value ro scale).2).updateObject
        kid.ptrId (buildUpdatedDict ctx kid (kidRect kid) value ro scale).1 with hctx2
      constructor
      · intro u hu
        apply (ih ctx2).1
        have h1 : u ∈ ((buildUpdatedDict ctx kid (kidRect kid) value ro scale).2).updatedObjects := by
          unfold buildUpdatedDict
          rw [buildLoop_updated_eq]
          exact hu
        rw [hctx2]
        unfold SignContext.updateObject
        simp only [List.mem_append]
        exact Or.inl h1
      · intro a ha
        apply (ih ctx2).2
        have h1 : a ∈ ((buildUpdatedDict ctx kid (kidRect kid) value ro scale).2).addedObjects := by
          unfold buildUpdatedDict
          exact buildLoop_added_mono kid (kidRect kid) value scale _ ctx a ha
        exact h1

/-- Every indirect kid gets a recorded replacement dictionary satisfying
the amended C6 description against its own rectangle. -/
theorem processKids_spec (value : GoStr) (ro : Bool) (scale : ℚ) :
    ∀ (kids : List PdfVal) (ctx : SignContext) (kid : PdfVal),
      kid ∈ kids → kid.ptrId ≠ 0 →
      ∃ dk, (kid.ptrId, dk) ∈ (processKids value ro scale kids ctx).updatedObjects ∧
        dictSpec kid (kidRect kid) value ro scale dk
          (processKids value ro scale kids ctx).addedObjects := by
  intro kids
  induction kids with
  | nil => intro ctx kid hk; cases hk
  | cons kid0 rest ih =>
    intro ctx kid hk hid
    rcases List.mem_cons.mp hk with rfl | htail
    · unfold processKids
      rw [if_neg hid]
      set r := buildUpdatedDict ctx kid (kidRect kid) value ro scale with hr
      set ctx2 := r.2.updateObject kid.ptrId r.1 with hctx2
      refine ⟨r.1, ?_, ?_⟩
      · apply (processKids_mono value ro scale rest ctx2).1
        rw [hctx2]
        unfold SignContext.updateObject
        simp
      · apply dictSpec_added_mono kid (kidRect kid) value ro scale r.1
          r.2.addedObjects
        · intro a ha
          apply (processKids_mono value ro scale rest ctx2).2
          exact ha
        · exact buildUpdatedDict_spec ctx kid (kidRect kid) value ro scale
    · unfold processKids
      by_cases hp : kid0.ptrId = 0
      · rw [if_pos hp]; exact ih ctx kid htail hid
      · rw [if_neg hp]
        exact ih _ kid htail hid

/-- C6 (amended): for every field backed by an indirect object,
`updateFieldObject` records a replacement dictionary satisfying
`dictSpec` (with `/AP` regenerated only when the rectangle derived from
the first kid's `/Rect` — or the `100×20` default — has positive width
and height), the same holds for each indirect kid widget against its own
`/Rect`, and `normalizeDA` always produces `/F1 <size> Tf 0 0 0 rg`. -/
theorem c6_update_field_amended (ctx : SignContext) (field : PdfVal) (value : GoStr)
    (ro : Bool) (scale : ℚ) (hid : field.ptrId ≠ 0) :
    (∃ d, (field.ptrId, d) ∈ (updateFieldObject ctx field value ro scale).updatedObjects ∧
      dictSpec field (getFieldRect field) value ro scale d
        (updateFieldObject ctx field value ro scale).addedObjects) ∧
    (∀ kid ∈ (field.key "Kids").elems, kid.ptrId ≠ 0 →
      ∃ dk, (kid.ptrId, dk) ∈ (updateFieldObject ctx field value ro scale).updatedObjects ∧
        dictSpec kid (kidRect kid) value ro scale dk
          (updateFieldObject ctx field value ro scale).addedObjects) ∧
    (∀ raw, ∃ sz, normalizeDA raw = goStr "/F1 " ++ sz ++ goStr " Tf 0 0 0 rg") := by
  unfold updateFieldObject
  rw [if_neg hid]
  set r := buildUpdatedDict ctx field (getFieldRect field) value ro scale with hr
  set ctx2 := r.2.updateObject field.ptrId r.1 with hctx2
  refine ⟨⟨r.1, ?_, ?_⟩, ?_, ?_⟩
  · apply (processKids_mono value ro scale _ ctx2).1
    rw [hctx2]
    unfold SignContext.updateObject
    simp
  · apply dictSpec_added_mono field (getFieldRect field) value ro scale r.1
      r.2.addedObjects
    · intro a ha
      apply (processKids_mono value ro scale _ ctx2).2
      exact ha
    · exact buildUpdatedDict_spec ctx field (getFieldRect field) value ro scale
  · intro kid hk hkid
    exact processKids_spec value ro scale _ ctx2 kid hk hkid
  · intro raw
    exact ⟨_, rfl⟩

/-- Counterexample to C6 as stated: this field has an `/AP` key, but its
first kid's `/Rect` is degenerate (zero width and height), so the
appearance cannot be built and `/AP` is silently dropped rather than
replaced: the recorded replacement dictionary has no `/AP` entry and no
appearance object is added. -/
theorem c6_ap_replacement_counterexample :
    "AP" ∈ (PdfVal.obj 5 [("AP", PdfVal.null),
      ("Kids", PdfVal.arr [PdfVal.obj 0
        [("Rect", PdfVal.arr [PdfVal.real 0, PdfVal.real 0, PdfVal.real 0, PdfVal.real 0])]])]).keysOf ∧
    updateFieldObject ⟨1, [], []⟩
      (PdfVal.obj 5 [("AP", PdfVal.null),
        ("Kids", PdfVal.arr [PdfVal.obj 0
          [("Rect", PdfVal.arr [PdfVal.real 0, PdfVal.real 0, PdfVal.real 0, PdfVal.real 0])]])])
      (goStr "X") true 0 =
    ⟨1, [],
     [(5, [("Kids", EmittedVal.serialized (PdfVal.arr [PdfVal.obj 0
          [("Rect", PdfVal.arr [PdfVal.real 0, PdfVal.real 0, PdfVal.real 0, PdfVal.real 0])]])),
       ("Ff", EmittedVal.intv 2),
       ("V", EmittedVal.pstr (goStr "X")), ("AS", EmittedVal.pstr (goStr "X"))])]⟩ := by
  refine ⟨by decide, ?_⟩
  have herr : createTextFieldAppearance (goStr "X") (⟨0, 0, 0, 0⟩ : Rect4)
      (goStr "/F1 10 Tf 0 0 0 rg") 0 = .error "invalid rectangle dimensions" := by
    unfold createTextFieldAppearance
    rw [if_pos]
    norm_num
  have e4 : getFieldRect (PdfVal.obj 5 [("AP", PdfVal.null),
      ("Kids", PdfVal.arr [PdfVal.obj 0
        [("Rect", PdfVal.arr [PdfVal.real 0, PdfVal.real 0, PdfVal.real 0, PdfVal.real 0])]])]) =
      (⟨0, 0, 0, 0⟩ : Rect4) := rfl
  have e3 : normalizeDA ((PdfVal.key (PdfVal.obj 5 [("AP", PdfVal.null),
      ("Kids", PdfVal.arr [PdfVal.obj 0
        [("Rect", PdfVal.arr [PdfVal.real 0, PdfVal.real 0, PdfVal.real 0, PdfVal.real 0])]])])
        "DA").rawString) = goStr "/F1 10 Tf 0 0 0 rg" := by decide
  have hlor : Int.lor 0 2 = 2 := by decide
  have s1 : (("AP" : String) = "V") = False := eq_false (by decide)
  have s2 : (("AP" : String) = "Ff") = False := eq_false (by decide)
  have s3 : (("AP" : String) = "AP") = True := eq_true rfl
  have s4 : (("Kids" : String) = "V") = False := eq_false (by decide)
  have s5 : (("Kids" : String) = "Ff") = False := eq_false (by decide)
  have s6 : (("Kids" : String) = "AP") = False := eq_false (by decide)
  have s7 : (("Kids" : String) = "T") = False := eq_false (by decide)
  have s8 : (("Kids" : String) = "DA") = False := eq_false (by decide)
  simp only [updateFieldObject, buildUpdatedDict, processKids, buildLoop, e4, e3, herr,
    SignContext.updateObject, SignContext.addObject, PdfVal.elems, PdfVal.ptrId,
    PdfVal.keysOf, hlor, s1, s2, s3, s4, s5, s6, s7, s8, if_true, if_false,
    List.map_cons, List.map_nil, List.nil_append, List.append_nil]
  rfl

/-- Witness for C6 (amended): a concrete indirect field with `/T`, `/DA`,
`/AP`, `/Ff` and one indirect kid widget of positive size. -/
theorem c6_update_field_amended_witness :
    ∃ d, (5, d) ∈
      (updateFieldObject ⟨1, [], []⟩
        (PdfVal.obj 5 [("T", PdfVal.str (goStr "sig")), ("AP", PdfVal.null),
          ("Ff", PdfVal.int 4),
          ("Kids", PdfVal.arr [PdfVal.obj 7
            [("Rect", PdfVal.arr [PdfVal.real 0, PdfVal.real 0, PdfVal.real 100, PdfVal.real 20])]])])
        (goStr "JD") true 0).updatedObjects ∧
      dictSpec
        (PdfVal.obj 5 [("T", PdfVal.str (goStr "sig")), ("AP", PdfVal.null),
          ("Ff", PdfVal.int 4),
          ("Kids", PdfVal.arr [PdfVal.obj 7
            [("Rect", PdfVal.arr [PdfVal.real 0, PdfVal.real 0, PdfVal.real 100, PdfVal.real 20])]])])
        (getFieldRect (PdfVal.obj 5 [("T", PdfVal.str (goStr "sig")), ("AP", PdfVal.null),
          ("Ff", PdfVal.int 4),
          ("Kids", PdfVal.arr [PdfVal.obj 7
            [("Rect", PdfVal.arr [PdfVal.real 0, PdfVal.real 0, PdfVal.real 100, PdfVal.real 20])]])]))
        (goStr "JD") true 0 d
        (updateFieldObject ⟨1, [], []⟩
          (PdfVal.obj 5 [("T", PdfVal.str (goStr "sig")), ("AP", PdfVal.null),
            ("Ff", PdfVal.int 4),
            ("Kids", PdfVal.arr [PdfVal.obj 7
              [("Rect", PdfVal.arr [PdfVal.real 0, PdfVal.real 0, PdfVal.real 100, PdfVal.real 20])]])])
          (goStr "JD") true 0).addedObjects :=
  (c6_update_field_amended ⟨1, [], []⟩
    (PdfVal.obj 5 [("T", PdfVal.str (goStr "sig")), ("AP", PdfVal.null),
      ("Ff", PdfVal.int 4),
      ("Kids", PdfVal.arr [PdfVal.obj 7
        [("Rect", PdfVal.arr [PdfVal.real 0, PdfVal.real 0, PdfVal.real 100, PdfVal.real 20])]])])
    (goStr "JD") true 0 (by decide)).1
